import Mathlib

/-!
# Verification of the road-network routing subsystem

Shallow embedding of the routing core of the repository:

* `src/lib/router.ts` — graph loader, haversine helper, nearest-node locator,
  preference-weighted Dijkstra, multi-waypoint route composer;
* `src/unnamed/part_000` (the implemented `scripts/build-graph.ts`) — the
  offline graph builder;
* `src/types/index.ts` — the shared data model.

Modelling conventions:

* JavaScript numbers are modelled as exact rationals (`ℚ`).  The source's
  floating-point `Infinity` and `undefined` values, which both occur as map
  values inside `dijkstra` (`distances[k]` is `Infinity` for initialised keys
  and `undefined` for keys absent from the graph), are modelled by the
  three-state type `JNum` whose arithmetic and comparisons follow the
  JavaScript semantics (`undefined` propagates like `NaN`, all comparisons
  with `NaN` are false, `Infinity + x = Infinity`, `Infinity < Infinity` is
  false).
* The trigonometric great-circle formula (`haversineDistance`) is not exactly
  representable in computable rational arithmetic, so every definition that
  consumes it takes the point-to-point distance function as an explicit
  parameter `hdist`.  All universally quantified theorems hold for *every*
  such function, hence in particular for the real haversine distance; witness
  theorems instantiate `hdist` with a concrete computable stand-in.
* JavaScript `Record`/`Map` iteration order is insertion order for string
  keys; records are therefore modelled as association lists in insertion
  order, and `Object.values`/`Object.keys` walks are list walks.
* The unbounded `while` loops of the source are modelled by fuel-indexed
  recursion.  The fuel supplied by the wrapper functions is `fuelBound`,
  one more than the number of queue insertions a run can ever perform (the
  initial push plus at most one per directed edge); every loop iteration
  pops one element, so the source loop always empties its queue or breaks
  within that many iterations and the embedding computes the same function.
-/

/-- Road classification, from `src/types/index.ts`.  The source value
`'local'` is a Lean keyword, hence the constructor name `local_`. -/
inductive RoadClass where
  | highway
  | arterial
  | collector
  | local_
  | resource
  | decommissioned
deriving DecidableEq, Repr

/-- Map coordinates, from `src/types/index.ts` (numbers as exact rationals). -/
structure LatLng where
  lat : ℚ
  lng : ℚ
deriving DecidableEq, Repr

/-- JavaScript number as it occurs in the solver's distance maps: a finite
number, `Infinity`, or `undefined` (the value of a map lookup at an absent
key; it propagates through arithmetic like `NaN`). -/
inductive JNum where
  | undef
  | inf
  | num (q : ℚ)
deriving DecidableEq, Repr

namespace JNum

/-- JavaScript `+` on the values that occur in the solver: `undefined + x`
is `NaN` (modelled by `undef`), `Infinity + finite = Infinity`.  Negative
infinity never occurs (distances are only ever initialised to `+Infinity`). -/
def add : JNum → JNum → JNum
  | undef, _ => undef
  | _, undef => undef
  | inf, _ => inf
  | _, inf => inf
  | num a, num b => num (a + b)

/-- JavaScript `<` on the values that occur in the solver: every comparison
involving `NaN` (here: `undef`) is false, `finite < Infinity` is true,
`Infinity < x` is false. -/
def lt : JNum → JNum → Bool
  | undef, _ => false
  | _, undef => false
  | inf, _ => false
  | num _, inf => true
  | num a, num b => decide (a < b)

/-- JavaScript `=== Infinity` test. -/
def isInf : JNum → Bool
  | inf => true
  | _ => false

/-- Extract the finite value; the single call site
(`distance: actualDistances[endNodeId]`) is reached only when the value is
finite (the `=== Infinity` guard has failed and the end node is a key of the
graph), so the default is never observable under the theorems' hypotheses. -/
def toQ : JNum → ℚ
  | num q => q
  | _ => 0

end JNum

/-- `ROAD_SPEEDS` from `src/lib/router.ts`: baseline travel speed (km/h) by
road class. -/
def ROAD_SPEEDS : RoadClass → ℚ
  | .highway => 100
  | .arterial => 80
  | .collector => 60
  | .local_ => 50
  | .resource => 40
  | .decommissioned => 20

/-- `RoadClassDistances` / `RoadClassTravelTimes` from `src/types/index.ts`:
a record with one numeric field per road class.  Field order matches the
insertion order used by `createEmptyRoadClassRecord`, which is the iteration
order of the source's `Object.keys` walks. -/
structure RoadClassRecord where
  highway : ℚ
  arterial : ℚ
  collector : ℚ
  local_ : ℚ
  resource : ℚ
  decommissioned : ℚ
deriving DecidableEq, Repr

namespace RoadClassRecord

/-- Field projection by road class. -/
def get (r : RoadClassRecord) : RoadClass → ℚ
  | .highway => r.highway
  | .arterial => r.arterial
  | .collector => r.collector
  | .local_ => r.local_
  | .resource => r.resource
  | .decommissioned => r.decommissioned

/-- Add `q` to the field of road class `c`. -/
def bump (r : RoadClassRecord) (c : RoadClass) (q : ℚ) : RoadClassRecord :=
  match c with
  | .highway => { r with highway := r.highway + q }
  | .arterial => { r with arterial := r.arterial + q }
  | .collector => { r with collector := r.collector + q }
  | .local_ => { r with local_ := r.local_ + q }
  | .resource => { r with resource := r.resource + q }
  | .decommissioned => { r with decommissioned := r.decommissioned + q }

/-- Sum of all six fields in the source's `Object.keys` iteration order
(how `dijkstra` and `calculateRoute` total up travel time). -/
def total (r : RoadClassRecord) : ℚ :=
  r.highway + r.arterial + r.collector + r.local_ + r.resource + r.decommissioned

end RoadClassRecord

/-- `createEmptyRoadClassRecord` from `src/lib/router.ts`. -/
def createEmptyRoadClassRecord : RoadClassRecord :=
  { highway := 0, arterial := 0, collector := 0, local_ := 0, resource := 0
    decommissioned := 0 }

/-- `calculateTravelTime` from `src/lib/router.ts`: seconds for a distance
(metres) on a road class, via speed converted from km/h to m/s. -/
def calculateTravelTime (distanceMeters : ℚ) (roadClass : RoadClass) : ℚ :=
  let speedKmh := ROAD_SPEEDS roadClass
  let speedMps := speedKmh * 1000 / 3600
  distanceMeters / speedMps

/-- `GraphEdge` from `src/types/index.ts`, as consumed by the router.  The
router guards every read of `roadClass` with `edge.roadClass || 'local'`,
i.e. it treats the attribute as possibly absent (graphs produced by the
builder in `src/unnamed/part_000` indeed carry no such attribute), so the
field is modelled as an `Option`. -/
structure GraphEdge where
  targetNodeId : String
  roadSegmentId : String
  weight : ℚ
  roadClass : Option RoadClass
deriving DecidableEq, Repr

/-- `GraphNode` from `src/types/index.ts`. -/
structure GraphNode where
  id : String
  position : LatLng
  edges : List GraphEdge
deriving DecidableEq, Repr

/-- `RoutingGraph` from `src/lib/router.ts`: the node record is an
association list in JavaScript insertion order (metadata is irrelevant to
the routing functions and omitted). -/
structure RoutingGraph where
  nodes : List (String × GraphNode)
deriving DecidableEq, Repr

/-- `graph.nodes[id]`: first association-list hit, mirroring the unique-key
record lookup of the source. -/
def RoutingGraph.find? (g : RoutingGraph) (id : String) : Option GraphNode :=
  (g.nodes.find? (fun kv => kv.1 = id)).map (·.2)

/-- `RoadPreferences` from the shared types (`src/lib/store.ts` shows the
shape): two ranked preference lists. -/
structure RoadPreferences where
  types : List RoadClass
  surfaces : List String
deriving DecidableEq, Repr

/-- JavaScript `Array.prototype.indexOf`: index of the first occurrence, or
`-1` when absent (as an integer, compared with `>= 0` at the call site). -/
def jsIndexOf (xs : List RoadClass) (x : RoadClass) : Int :=
  match xs with
  | [] => -1
  | y :: ys => if y = x then 0 else
      let r := jsIndexOf ys x
      if r = -1 then -1 else r + 1

/-- `getPreferenceWeight` from `src/lib/router.ts`: preference multiplier
for an edge.  `preferences` absent → 1.0; otherwise, for the edge's road
class (defaulting to `local` when absent), a member of the ranked list at
index `i` gets `0.5 + 0.1 * i`, a non-member gets `1.5` when the list is
non-empty, and an empty list leaves the multiplier at `1.0`. -/
def getPreferenceWeight (edge : GraphEdge) (preferences : Option RoadPreferences) : ℚ :=
  match preferences with
  | none => 1
  | some prefs =>
    let roadClass := edge.roadClass.getD .local_
    if prefs.types.length > 0 then
      let typeIndex := jsIndexOf prefs.types roadClass
      if typeIndex ≥ 0 then
        1 * (1/2 + 1/10 * typeIndex)
      else
        1 * (3/2)
    else 1

/-- Result of a routing query (`RouteResult` in `src/lib/router.ts`).
`distance` is copied verbatim from the solver's `actualDistances` map and is
therefore a `JNum`. -/
structure RouteResult where
  path : List LatLng
  distance : JNum
  nodeIds : List String
  distanceByRoadClass : RoadClassRecord
  travelTime : ℚ
  travelTimeByRoadClass : RoadClassRecord
deriving DecidableEq, Repr

/-- A string-keyed JavaScript record, as an association list in insertion
order. -/
abbrev DMap (α : Type) : Type := List (String × α)

/-- Record read `m[k]`; `dflt` is what an absent key reads as (`undefined`,
i.e. `JNum.undef` for the distance maps and `none` for `previous`). -/
def DMap.get {α : Type} (m : DMap α) (dflt : α) (k : String) : α :=
  ((m.find? (fun kv => kv.1 = k)).map (·.2)).getD dflt

/-- Record write `m[k] = v`: overwrite in place when the key exists, append
otherwise (JavaScript property-assignment semantics; see `DMap.get_set`). -/
def DMap.set {α : Type} (m : DMap α) (k : String) (v : α) : DMap α :=
  if m.any (fun kv => kv.1 = k) then
    m.map (fun kv => if kv.1 = k then (k, v) else kv)
  else m ++ [(k, v)]

/-- The `PriorityQueue` of `src/lib/router.ts` is an array kept sorted by a
stable sort after each `push`.  Pushing onto a sorted array and stably
re-sorting equals inserting the new entry after all entries of smaller or
equal priority, which is what this insertion does. -/
def pqInsert : List (String × ℚ) → String × ℚ → List (String × ℚ)
  | [], x => [x]
  | y :: ys, x => if x.2 < y.2 then x :: y :: ys else y :: pqInsert ys x

/-- Mutable state of `dijkstra` (`src/lib/router.ts`): the three maps, the
visited set (as a list in visit order — the source's `Set` preserves
insertion order and is only ever membership-tested), and the queue. -/
structure DState where
  distances : DMap JNum
  actualDistances : DMap JNum
  previous : DMap (Option (String × GraphEdge))
  visited : List String
  queue : List (String × ℚ)
deriving Repr

/-- The initialisation block of `dijkstra`: one entry per graph key, with
distance `Infinity` (`0` for the start) and no predecessor; absent keys read
as `undefined`. -/
def initState (g : RoutingGraph) (startNodeId : String) : DState where
  distances := g.nodes.map (fun kv =>
    (kv.1, if kv.1 = startNodeId then JNum.num 0 else JNum.inf))
  actualDistances := g.nodes.map (fun kv =>
    (kv.1, if kv.1 = startNodeId then JNum.num 0 else JNum.inf))
  previous := g.nodes.map (fun kv => (kv.1, none))
  visited := []
  queue := [(startNodeId, 0)]

/-- One iteration of the neighbour loop of `dijkstra`: skip visited targets,
apply the preference multiplier, and relax.  The enqueue priority
`newDistance` is finite whenever the relaxation guard holds (a `<` involving
`undefined` or with `Infinity` on the left is false), so `toQ` is exact at
the single place it is used. -/
def relaxEdge (prefs : Option RoadPreferences) (currentId : String)
    (S : DState) (edge : GraphEdge) : DState :=
  if S.visited.contains edge.targetNodeId then S
  else
    let preferenceWeight := getPreferenceWeight edge prefs
    let weightedEdgeWeight := edge.weight * preferenceWeight
    let newDistance := (S.distances.get .undef currentId).add (.num weightedEdgeWeight)
    let newActualDistance :=
      (S.actualDistances.get .undef currentId).add (.num edge.weight)
    if (newDistance.lt (S.distances.get .undef edge.targetNodeId)) then
      { distances := S.distances.set edge.targetNodeId newDistance
        actualDistances := S.actualDistances.set edge.targetNodeId newActualDistance
        previous := S.previous.set edge.targetNodeId (some (currentId, edge))
        visited := S.visited
        queue := pqInsert S.queue (edge.targetNodeId, newDistance.toQ) }
    else S

/-- The body run for a newly visited node: look it up (`if (!currentNode)
continue`) and relax all its edges. -/
def visitNode (g : RoutingGraph) (prefs : Option RoadPreferences)
    (currentId : String) (S : DState) : DState :=
  match g.find? currentId with
  | none => S
  | some node => node.edges.foldl (relaxEdge prefs currentId) S

/-- The main `while (!queue.isEmpty())` loop of `dijkstra`, including the
early `break` when the target is popped.  Fuel-indexed; the `fuelBound`
below exceeds the total number of queue insertions a run can perform, and
every iteration pops one element, so it always suffices. -/
def loopE (g : RoutingGraph) (prefs : Option RoadPreferences) (endNodeId : String) :
    ℕ → DState → DState
  | 0, S => S
  | fuel + 1, S =>
    match S.queue with
    | [] => S
    | (currentId, _) :: rest =>
      let S₁ : DState := { S with queue := rest }
      if S₁.visited.contains currentId then loopE g prefs endNodeId fuel S₁
      else
        let S₂ : DState := { S₁ with visited := S₁.visited ++ [currentId] }
        if currentId = endNodeId then S₂
        else loopE g prefs endNodeId fuel (visitNode g prefs currentId S₂)

/-- The same loop without the early termination: the queue is run until it
empties.  This is the reference ("no early exit") formulation that §4.4 of
the spec compares the optimisation against. -/
def loopN (g : RoutingGraph) (prefs : Option RoadPreferences) :
    ℕ → DState → DState
  | 0, S => S
  | fuel + 1, S =>
    match S.queue with
    | [] => S
    | (currentId, _) :: rest =>
      let S₁ : DState := { S with queue := rest }
      if S₁.visited.contains currentId then loopN g prefs fuel S₁
      else
        let S₂ : DState := { S₁ with visited := S₁.visited ++ [currentId] }
        loopN g prefs fuel (visitNode g prefs currentId S₂)

/-- Total out-degree of the graph: each pop beyond the initial one is paid
for by an edge of a freshly visited node, so the loop performs at most
`totalOutDeg g + 1` iterations. -/
def totalOutDeg (g : RoutingGraph) : ℕ :=
  (g.nodes.map (fun kv => kv.2.edges.length)).sum

/-- Fuel that provably dominates the iteration count of the solver loop. -/
def fuelBound (g : RoutingGraph) : ℕ :=
  totalOutDeg g + 2

/-- The path-reconstruction loop of `dijkstra`: walk `previous` links from
the target, building the node-id and edge sequences front-to-back (the
source `unshift`s).  Fuel-indexed; the predecessor chain strictly descends
the visit order, so `|visited| + 1` steps always suffice. -/
def reconstruct (prev : DMap (Option (String × GraphEdge))) :
    ℕ → String → List String × List GraphEdge
  | 0, current => ([current], [])
  | fuel + 1, current =>
    match prev.get none current with
    | none => ([current], [])
    | some (nodeId, edge) =>
      let r := reconstruct prev fuel nodeId
      (r.1 ++ [current], r.2 ++ [edge])

/-- One iteration of the road-class breakdown loop of `dijkstra`
(`const roadClass = edge.roadClass || 'local'; distanceByRoadClass[roadClass]
+= edge.weight; travelTimeByRoadClass[roadClass] += calculateTravelTime(...)`). -/
def bucketStep (acc : RoadClassRecord × RoadClassRecord) (e : GraphEdge) :
    RoadClassRecord × RoadClassRecord :=
  let rc := e.roadClass.getD .local_
  (acc.1.bump rc e.weight, acc.2.bump rc (calculateTravelTime e.weight rc))

/-- The result-assembly tail of `dijkstra`: the no-path check, path
reconstruction, per-road-class breakdown, travel-time total, and coordinate
path. -/
def extract (g : RoutingGraph) (S : DState) (endNodeId : String) : Option RouteResult :=
  if (S.distances.get .undef endNodeId).isInf then none
  else
    let r := reconstruct S.previous (S.visited.length + 1) endNodeId
    let nodeIds := r.1
    let edges := r.2
    let buckets := edges.foldl bucketStep
      (createEmptyRoadClassRecord, createEmptyRoadClassRecord)
    let path := nodeIds.map (fun id => ((g.find? id).map (·.position)).getD ⟨0, 0⟩)
    some { path
           distance := S.actualDistances.get .undef endNodeId
           nodeIds
           distanceByRoadClass := buckets.1
           travelTime := buckets.2.total
           travelTimeByRoadClass := buckets.2 }

/-- The full solver state after the main loop. -/
def dijkstraRun (g : RoutingGraph) (prefs : Option RoadPreferences)
    (startNodeId endNodeId : String) : DState :=
  loopE g prefs endNodeId (fuelBound g) (initState g startNodeId)

/-- `dijkstra` from `src/lib/router.ts`. -/
def dijkstra (g : RoutingGraph) (startNodeId endNodeId : String)
    (prefs : Option RoadPreferences) : Option RouteResult :=
  extract g (dijkstraRun g prefs startNodeId endNodeId) endNodeId

/-- The solver as the spec describes it without the early-`break`
optimisation: run the queue to exhaustion, then assemble the result the same
way. -/
def dijkstraNoEarly (g : RoutingGraph) (startNodeId endNodeId : String)
    (prefs : Option RoadPreferences) : Option RouteResult :=
  extract g (loopN g prefs (fuelBound g) (initState g startNodeId)) endNodeId

/-- The edge sequence actually traversed by the returned path (the `edges`
list of the source's reconstruction loop). -/
def dijkstraPathEdges (g : RoutingGraph) (startNodeId endNodeId : String)
    (prefs : Option RoadPreferences) : List GraphEdge :=
  let S := dijkstraRun g prefs startNodeId endNodeId
  (reconstruct S.previous (S.visited.length + 1) endNodeId).2

/-- `haversineDistance` as a parameter: the router's great-circle distance
(sphere of radius 6 371 000 m) is trigonometric and has no exact rational
form, so the functions below abstract over the point-to-point distance
function `hdist`; every theorem quantifying over `hdist` holds in particular
for the real haversine. -/
abbrev DistFn : Type := LatLng → LatLng → ℚ

/-- `findNearestNode` from `src/lib/router.ts`: linear scan over
`Object.values(graph.nodes)` keeping the strictly smaller distance (first
encountered wins ties); `nearestDistance` starts at `Infinity`, modelled by
`none`. -/
def findNearestNode (hdist : DistFn) (g : RoutingGraph) (position : LatLng) :
    Option GraphNode :=
  (g.nodes.foldl
    (fun (acc : Option GraphNode × Option ℚ) kv =>
      let distance := hdist position kv.2.position
      match acc.2 with
      | none => (some kv.2, some distance)
      | some nearest => if distance < nearest then (some kv.2, some distance) else acc)
    (none, none)).1

/-- `positionsEqual` from `src/lib/router.ts`: both coordinates within
`0.00001` degrees. -/
def positionsEqual (p1 p2 : LatLng) : Bool :=
  decide (|p1.lat - p2.lat| < 1 / 100000) && decide (|p1.lng - p2.lng| < 1 / 100000)

/-- `calculateStraightLineDistance` from `src/lib/router.ts`: sum of
consecutive point-to-point distances. -/
def calculateStraightLineDistance (hdist : DistFn) (waypoints : List LatLng) : ℚ :=
  (waypoints.zip waypoints.tail).foldl (fun acc pq => acc + hdist pq.1 pq.2) 0

/-- `RouteLeg` from `src/types/index.ts`. -/
structure RouteLeg where
  fromWaypointIndex : ℕ
  toWaypointIndex : ℕ
  distance : JNum
  distanceByRoadClass : RoadClassRecord
  travelTime : ℚ
  travelTimeByRoadClass : RoadClassRecord
deriving DecidableEq, Repr

/-- `ExtendedRouteResult` from `src/lib/router.ts`. -/
structure ExtendedRouteResult extends RouteResult where
  legs : List RouteLeg
deriving DecidableEq, Repr

/-- Pointwise sum of two road-class records: the
`for (const roadClass of Object.keys(...))` accumulation loops of
`calculateRoute`. -/
def RoadClassRecord.addAll (r s : RoadClassRecord) : RoadClassRecord :=
  { highway := r.highway + s.highway
    arterial := r.arterial + s.arterial
    collector := r.collector + s.collector
    local_ := r.local_ + s.local_
    resource := r.resource + s.resource
    decommissioned := r.decommissioned + s.decommissioned }

/-- The whole-route fallback of `calculateRoute` (graph unavailable, or some
waypoint has no locatable node): straight-line path through the raw
waypoints, everything bucketed as `local`, no legs. -/
def wholeRouteFallback (hdist : DistFn) (waypoints : List LatLng) : ExtendedRouteResult :=
  let distance := calculateStraightLineDistance hdist waypoints
  let fallbackTime := calculateTravelTime distance .local_
  { path := waypoints
    distance := .num distance
    nodeIds := []
    distanceByRoadClass := { createEmptyRoadClassRecord with local_ := distance }
    travelTime := fallbackTime
    travelTimeByRoadClass := { createEmptyRoadClassRecord with local_ := fallbackTime }
    legs := [] }

/-- Accumulator of the per-pair loop of `calculateRoute`. -/
structure ComposeAcc where
  fullPath : List LatLng
  allNodeIds : List String
  legs : List RouteLeg
  totalDistance : JNum
  totalDistanceByRoadClass : RoadClassRecord
  totalTravelTimeByRoadClass : RoadClassRecord

/-- The body of `for (let i = 0; i < waypointNodes.length - 1; i++)` in
`calculateRoute`, for the pair `(startNode, endNode)` at index `i`:
graph-route the pair, or fall back to a straight-line leg bucketed as
`local` when the solver reports no path. -/
def composeStep (hdist : DistFn) (g : RoutingGraph) (prefs : Option RoadPreferences)
    (acc : ComposeAcc) (step : ℕ × GraphNode × GraphNode) : ComposeAcc :=
  let i := step.1
  let startNode := step.2.1
  let endNode := step.2.2
  match dijkstra g startNode.id endNode.id prefs with
  | none =>
    let fullPath₁ :=
      if acc.fullPath.length = 0
          || !(positionsEqual (acc.fullPath.getLastD ⟨0, 0⟩) startNode.position) then
        acc.fullPath ++ [startNode.position]
      else acc.fullPath
    let fullPath₂ := fullPath₁ ++ [endNode.position]
    let straightLineDistance := hdist startNode.position endNode.position
    let legDistances := { createEmptyRoadClassRecord with local_ := straightLineDistance }
    let legTravelTime := calculateTravelTime straightLineDistance .local_
    let legTimes := { createEmptyRoadClassRecord with local_ := legTravelTime }
    { fullPath := fullPath₂
      allNodeIds := acc.allNodeIds
      legs := acc.legs ++
        [{ fromWaypointIndex := i, toWaypointIndex := i + 1
           distance := .num straightLineDistance
           distanceByRoadClass := legDistances
           travelTime := legTravelTime
           travelTimeByRoadClass := legTimes }]
      totalDistance := acc.totalDistance.add (.num straightLineDistance)
      totalDistanceByRoadClass :=
        acc.totalDistanceByRoadClass.bump .local_ straightLineDistance
      totalTravelTimeByRoadClass :=
        acc.totalTravelTimeByRoadClass.bump .local_ legTravelTime }
  | some segment =>
    let startIndex : ℕ :=
      if acc.fullPath.length > 0
          && positionsEqual (acc.fullPath.getLastD ⟨0, 0⟩) (segment.path.headD ⟨0, 0⟩) then
        1
      else 0
    let nodeStartIndex : ℕ :=
      if acc.allNodeIds.length > 0
          && (acc.allNodeIds.getLastD "" = segment.nodeIds.headD "") then 1 else 0
    { fullPath := acc.fullPath ++ segment.path.drop startIndex
      allNodeIds := acc.allNodeIds ++ segment.nodeIds.drop nodeStartIndex
      legs := acc.legs ++
        [{ fromWaypointIndex := i, toWaypointIndex := i + 1
           distance := segment.distance
           distanceByRoadClass := segment.distanceByRoadClass
           travelTime := segment.travelTime
           travelTimeByRoadClass := segment.travelTimeByRoadClass }]
      totalDistance := acc.totalDistance.add segment.distance
      totalDistanceByRoadClass :=
        acc.totalDistanceByRoadClass.addAll segment.distanceByRoadClass
      totalTravelTimeByRoadClass :=
        acc.totalTravelTimeByRoadClass.addAll segment.travelTimeByRoadClass }

/-- Consecutive waypoint-node pairs with their indices (`i`, `startNode`,
`endNode` of the composer loop). -/
def nodePairs (nodes : List GraphNode) : List (ℕ × GraphNode × GraphNode) :=
  (nodes.zip nodes.tail).enum

/-- `calculateRoute` from `src/lib/router.ts`, with the resolved graph (the
awaited `loadGraph()` value) passed in explicitly: `none` means the graph
was unavailable.  Fewer than two waypoints give `null`; an unavailable graph
or an unlocatable waypoint gives the whole-route fallback; otherwise every
consecutive waypoint pair is routed (or straight-lined) and aggregated. -/
def calculateRoute (hdist : DistFn) (graph : Option RoutingGraph)
    (waypoints : List LatLng) (prefs : Option RoadPreferences) :
    Option ExtendedRouteResult :=
  if waypoints.length < 2 then none
  else
    match graph with
    | none => some (wholeRouteFallback hdist waypoints)
    | some g =>
      let waypointNodes := waypoints.map (findNearestNode hdist g)
      if waypointNodes.any (·.isNone) then some (wholeRouteFallback hdist waypoints)
      else
        let nodes : List GraphNode := waypointNodes.reduceOption
        let acc := (nodePairs nodes).foldl (composeStep hdist g prefs)
          { fullPath := []
            allNodeIds := []
            legs := []
            totalDistance := .num 0
            totalDistanceByRoadClass := createEmptyRoadClassRecord
            totalTravelTimeByRoadClass := createEmptyRoadClassRecord }
        some { path := acc.fullPath
               distance := acc.totalDistance
               nodeIds := acc.allNodeIds
               distanceByRoadClass := acc.totalDistanceByRoadClass
               travelTime := acc.totalTravelTimeByRoadClass.total
               travelTimeByRoadClass := acc.totalTravelTimeByRoadClass
               legs := acc.legs }

namespace Builder

/-!
The offline graph builder `buildGraph` of `src/unnamed/part_000` (the
implemented `scripts/build-graph.ts`).  Its local `GraphEdge` interface has
exactly the fields `targetNodeId`, `roadSegmentId`, `weight` — it carries
**no** road-class attribute, unlike the `GraphEdge` of `src/types/index.ts`
that the router consumes.
-/

/-- One vertex of an input polyline; GeoJSON positions are `[lng, lat]`. -/
structure Coord where
  lng : ℚ
  lat : ℚ
deriving DecidableEq, Repr

/-- Convert a polyline vertex to the router's coordinate order. -/
def Coord.toLatLng (c : Coord) : LatLng := ⟨c.lat, c.lng⟩

/-- Feature geometry: the builder handles `LineString` and
`MultiLineString` and skips everything else. -/
inductive Geometry where
  | lineString (coordinates : List Coord)
  | multiLineString (coordinates : List (List Coord))
  | unsupported
deriving DecidableEq, Repr

/-- An input feature.  The road-classification attribute of the source data
(spec §6: every feature carries one) is carried here so that theorems can
state what the builder does with it; `buildGraph` in `part_000` never reads
any feature property. -/
structure Feature where
  geometry : Geometry
  roadClass : Option RoadClass
deriving DecidableEq, Repr

/-- The geometry normaliser: the chains of vertex lists a feature
contributes (`continue` on unsupported types). -/
def coordArrays : Geometry → List (List Coord)
  | .lineString cs => [cs]
  | .multiLineString css => css
  | .unsupported => []

/-- `COORD_PRECISION`-digit rounding behind `coordKey`'s
`toFixed(5)`: exact half-up rounding at five decimals (the float-formatting
corner cases of `toFixed` are abstracted to exact rational rounding; no
claim depends on them). -/
def round5 (q : ℚ) : ℚ := (⌊q * 100000 + 1/2⌋ : ℤ) / 100000

/-- A coordinate key: the pair behind the `"lng,lat"` key string of
`coordKey`. -/
abbrev Key : Type := ℚ × ℚ

/-- `coordKey(lng, lat)` from `part_000`. -/
def coordKey (lng lat : ℚ) : Key := (round5 lng, round5 lat)

/-- `lineStringLength` from `part_000`: haversine-summed length of the
consecutive vertices (distance function abstracted as `hdist`). -/
def lineStringLength (hdist : DistFn) (coordinates : List Coord) : ℚ :=
  (coordinates.zip coordinates.tail).foldl
    (fun length pq => length + hdist pq.1.toLatLng pq.2.toLatLng) 0

/-- The builder's local `GraphEdge` interface: `targetNodeId`,
`roadSegmentId`, `weight` — and nothing else; in particular no `roadClass`
field exists on edges the builder emits. -/
structure GraphEdge where
  targetNodeId : String
  roadSegmentId : String
  weight : ℚ
deriving DecidableEq, Repr

/-- The builder's local `GraphNode`. -/
structure GraphNode where
  id : String
  position : LatLng
  edges : List GraphEdge
deriving DecidableEq, Repr

/-- The builder's output graph with its metadata counts. -/
structure Graph where
  nodes : List (String × GraphNode)
  nodeCount : ℕ
  edgeCount : ℕ
deriving DecidableEq, Repr

/-- Increment the count of `key` in the insertion-ordered `endpointCounts`
map (`Map.set(key, (get(key) || 0) + 1)`). -/
def bumpKey : List (Key × ℕ) → Key → List (Key × ℕ)
  | [], k => [(k, 1)]
  | (k', c) :: rest, k =>
    if k' = k then (k', c + 1) :: rest else (k', c) :: bumpKey rest k

/-- First pass of `buildGraph`: count endpoint keys of every chain with at
least two vertices, in feature order. -/
def endpointCounts (features : List Feature) : List (Key × ℕ) :=
  features.foldl
    (fun m f =>
      (coordArrays f.geometry).foldl
        (fun m coords =>
          if coords.length < 2 then m
          else
            let first := coords.headD ⟨0, 0⟩
            let last := coords.getLastD ⟨0, 0⟩
            let startKey := coordKey first.lng first.lat
            let endKey := coordKey last.lng last.lat
            bumpKey (bumpKey m startKey) endKey)
        m)
    []

/-- Second pass of `buildGraph`: walk `endpointCounts` in insertion order,
creating a node `n<counter>` for every key with `count >= 1` (i.e. every
key), at the position recovered from the rounded key.  Returns the
key-to-node-id map and the node record. -/
def buildNodes : List (Key × ℕ) → ℕ → List (Key × String) × List (String × GraphNode)
  | [], _ => ([], [])
  | (key, count) :: rest, counter =>
    if count ≥ 1 then
      let nodeId := "n" ++ toString counter
      let r := buildNodes rest (counter + 1)
      ((key, nodeId) :: r.1,
       (nodeId, { id := nodeId, position := ⟨key.2, key.1⟩, edges := [] }) :: r.2)
    else buildNodes rest counter

/-- `coordToNode.get key`. -/
def keyLookup (c2n : List (Key × String)) (key : Key) : Option String :=
  (c2n.find? (fun kv => kv.1 = key)).map (·.2)

/-- `nodes[nodeId].edges.push(e)` on the node record. -/
def pushEdge (nds : List (String × GraphNode)) (id : String) (e : GraphEdge) :
    List (String × GraphNode) :=
  nds.map (fun kv =>
    if kv.1 = id then (kv.1, { kv.2 with edges := kv.2.edges ++ [e] }) else kv)

/-- Accumulator of the third pass (edge creation). -/
structure EdgeAcc where
  nodes : List (String × GraphNode)
  edgeCount : ℕ
  segmentCounter : ℕ
deriving Repr

/-- Third pass of `buildGraph`, one chain: skip chains with fewer than two
vertices, skip chains whose endpoint keys miss the node map, skip closed
loops (equal endpoint nodes); otherwise emit the two directed edges with the
summed length as weight — and no road class, since the builder's edge type
has none. -/
def edgeStep (hdist : DistFn) (c2n : List (Key × String))
    (acc : EdgeAcc) (coords : List Coord) : EdgeAcc :=
  if coords.length < 2 then acc
  else
    let first := coords.headD ⟨0, 0⟩
    let last := coords.getLastD ⟨0, 0⟩
    let startKey := coordKey first.lng first.lat
    let endKey := coordKey last.lng last.lat
    match keyLookup c2n startKey, keyLookup c2n endKey with
    | some startNodeId, some endNodeId =>
      if startNodeId = endNodeId then acc
      else
        let length := lineStringLength hdist coords
        let segmentId := "s" ++ toString acc.segmentCounter
        let nodes₁ := pushEdge acc.nodes startNodeId
          { targetNodeId := endNodeId, roadSegmentId := segmentId, weight := length }
        let nodes₂ := pushEdge nodes₁ endNodeId
          { targetNodeId := startNodeId, roadSegmentId := segmentId, weight := length }
        { nodes := nodes₂
          edgeCount := acc.edgeCount + 2
          segmentCounter := acc.segmentCounter + 1 }
    | _, _ => acc

/-- All vertex chains of the feature collection, in the iteration order of
the third pass. -/
def allChains (features : List Feature) : List (List Coord) :=
  features.foldl (fun l f => l ++ coordArrays f.geometry) []

/-- `buildGraph` from `src/unnamed/part_000`. -/
def buildGraph (hdist : DistFn) (features : List Feature) : Graph :=
  let counts := endpointCounts features
  let nodes0 := buildNodes counts 0
  let acc := (allChains features).foldl (edgeStep hdist nodes0.1)
    { nodes := nodes0.2, edgeCount := 0, segmentCounter := 0 }
  { nodes := acc.nodes, nodeCount := acc.nodes.length, edgeCount := acc.edgeCount }

end Builder

namespace Loader

/-!
Model of `loadGraph` from `src/lib/router.ts` (one un-cached load attempt,
i.e. the body of the async closure).  The payload of a successful parse is a
raw JSON value: the source performs a bare `as RoutingGraph` type assertion
and **no** schema validation; the only thing that can still fail inside the
`try` block is the template-literal log line, which reads
`graph.metadata.nodeCount` and `graph.metadata.edgeCount` and throws exactly
when `graph` is nullish or its `metadata` member is nullish/absent.
-/

/-- A parsed JSON value. -/
inductive JValue where
  | jnull
  | jbool (b : Bool)
  | jnum (q : ℚ)
  | jstr (s : String)
  | jarr (elems : List JValue)
  | jobj (fields : List (String × JValue))

/-- JSON object member lookup (`JSON.parse` keeps the last duplicate key). -/
def jfield (fields : List (String × JValue)) (name : String) : Option JValue :=
  (fields.reverse.find? (fun kv => kv.1 = name)).map (·.2)

/-- Whether evaluating `graph.metadata.nodeCount` throws: property access
throws on `null`/`undefined` only (primitives are boxed), so the log line
throws iff the payload is `null`, has no `metadata` member to speak of
(primitives and arrays read `undefined`), or its `metadata` member is
`null`. -/
def metadataThrows : JValue → Bool
  | .jobj fields =>
    match jfield fields "metadata" with
    | none => true
    | some .jnull => true
    | some _ => false
  | _ => true

/-- Outcome of `response.json()`. -/
inductive BodyParse where
  | malformed
  | parsed (v : JValue)

/-- Outcome of `fetch`. -/
inductive FetchResult where
  | networkError
  | response (ok : Bool) (body : BodyParse)

/-- One load attempt of `loadGraph`: network rejection and thrown JSON
parsing land in the `catch` (→ `null`); a non-ok status returns `null`; an
ok, parsed payload is returned as the graph unless the log line throws (also
caught → `null`).  No schema check happens anywhere. -/
def loadGraphAttempt : FetchResult → Option JValue
  | .networkError => none
  | .response false _ => none
  | .response true .malformed => none
  | .response true (.parsed v) => if metadataThrows v then none else some v

/-- Field lookup that is a string. -/
def strField (fields : List (String × JValue)) (name : String) : Bool :=
  match jfield fields name with
  | some (.jstr _) => true
  | _ => false

/-- Field lookup that is a number. -/
def numField (fields : List (String × JValue)) (name : String) : Bool :=
  match jfield fields name with
  | some (.jnum _) => true
  | _ => false

/-- Whether a JSON value is shaped like a `GraphEdge` of the graph-file
schema (spec §6 / `src/types/index.ts`). -/
def isEdgeShaped : JValue → Bool
  | .jobj fields =>
      strField fields "targetNodeId" && strField fields "roadSegmentId" &&
        numField fields "weight" && strField fields "roadClass"
  | _ => false

/-- Whether a JSON value is shaped like a `"lat"/"lng"` position. -/
def isPositionShaped : JValue → Bool
  | .jobj fields => numField fields "lat" && numField fields "lng"
  | _ => false

/-- Whether a JSON value is shaped like a `GraphNode` of the schema. -/
def isNodeShaped : JValue → Bool
  | .jobj fields =>
      strField fields "id" &&
        (match jfield fields "position" with
         | some p => isPositionShaped p
         | none => false) &&
        (match jfield fields "edges" with
         | some (.jarr es) => es.all isEdgeShaped
         | _ => false)
  | _ => false

/-- Whether a JSON value satisfies the graph-file schema of spec §6: a
`nodes` object whose members are node-shaped, plus a `metadata` object with
`nodeCount`, `edgeCount` and `generatedAt`. -/
def isGraphShaped : JValue → Bool
  | .jobj fields =>
      (match jfield fields "nodes" with
       | some (.jobj nodeFields) => nodeFields.all (fun kv => isNodeShaped kv.2)
       | _ => false) &&
      (match jfield fields "metadata" with
       | some (.jobj m) =>
           numField m "nodeCount" && numField m "edgeCount" && strField m "generatedAt"
       | _ => false)
  | _ => false

end Loader

/-! ## Supporting lemmas and concrete witness data -/

/-- Computable stand-in metric for witness/counterexample evaluations (the
taxicab distance in degrees).  The routing definitions are parametric in the
distance function, so any concrete choice exercises them; like the real
haversine, this one is positive on the distinct points used below. -/
def flatDist : DistFn := fun p q => |p.lat - q.lat| + |p.lng - q.lng|

theorem jsIndexOf_eq_neg_one (xs : List RoadClass) (x : RoadClass) (h : x ∉ xs) :
    jsIndexOf xs x = -1 := by
  induction xs with
  | nil => rfl
  | cons y ys ih =>
    simp only [List.mem_cons, not_or] at h
    simp [jsIndexOf, Ne.symm h.1, ih h.2]

theorem jsIndexOf_nonneg (xs : List RoadClass) (x : RoadClass) (h : x ∈ xs) :
    0 ≤ jsIndexOf xs x := by
  induction xs with
  | nil => simp at h
  | cons y ys ih =>
    by_cases hy : y = x
    · simp [jsIndexOf, hy]
    · have hx : x ∈ ys := by
        rcases List.mem_cons.mp h with h' | h'
        · exact absurd h'.symm hy
        · exact h'
      have h0 := ih hx
      have hne : jsIndexOf ys x ≠ -1 := by
        intro hc; rw [hc] at h0; norm_num at h0
      simp only [jsIndexOf, if_neg hy, if_neg hne]
      omega

theorem jsIndexOf_first_occurrence (xs : List RoadClass) (x : RoadClass) (r : ℕ)
    (h1 : xs.get? r = some x) (h2 : ∀ r' < r, xs.get? r' ≠ some x) :
    jsIndexOf xs x = r := by
  induction xs generalizing r with
  | nil => simp at h1
  | cons y ys ih =>
    cases r with
    | zero =>
      simp only [List.get?] at h1
      injection h1 with h1
      simp [jsIndexOf, h1]
    | succ r =>
      have hy : y ≠ x := by
        intro hc
        exact h2 0 (Nat.succ_pos r) (by simp [List.get?, hc])
      have hrec := ih r h1 (fun r' hr' => h2 (r' + 1) (Nat.succ_lt_succ hr'))
      have hmem : x ∈ ys := List.get?_mem (show ys.get? r = some x from h1)
      have hne : jsIndexOf ys x ≠ -1 := by
        intro hc
        have := jsIndexOf_nonneg ys x hmem
        rw [hc] at this; norm_num at this
      simp only [jsIndexOf, if_neg hy, if_neg hne, hrec]
      push_cast
      ring

/-- C3: For every edge and every `RoadPreferences` value, the preference
multiplier is `0.5 + 0.1·r` when the edge's (effective) road class first
appears at 0-based rank `r` of the preferred-types list, `1.5` when the list
is non-empty but does not contain that class, and `1.0` when the list is
empty or no preferences are supplied. -/
theorem preference_multiplier_spec (edge : GraphEdge) (prefs : RoadPreferences)
    (rc : RoadClass) (hrc : rc = edge.roadClass.getD .local_) :
    (∀ r : ℕ, prefs.types.get? r = some rc → (∀ r' < r, prefs.types.get? r' ≠ some rc) →
      getPreferenceWeight edge (some prefs) = 1/2 + 1/10 * r) ∧
    (prefs.types ≠ [] → rc ∉ prefs.types → getPreferenceWeight edge (some prefs) = 3/2) ∧
    (prefs.types = [] → getPreferenceWeight edge (some prefs) = 1) ∧
    getPreferenceWeight edge none = 1 := by
  refine ⟨?_, ?_, ?_, rfl⟩
  · intro r h1 h2
    have hlen : prefs.types.length > 0 := by
      cases h : prefs.types with
      | nil => rw [h] at h1; simp at h1
      | cons a l => simp [h]
    have hidx := jsIndexOf_first_occurrence prefs.types rc r h1 h2
    have hge : jsIndexOf prefs.types rc ≥ 0 := by rw [hidx]; positivity
    simp only [getPreferenceWeight, ← hrc, hidx, if_pos hlen]
    rw [if_pos (show (r : ℤ) ≥ 0 by positivity)]
    push_cast
    ring
  · intro hne hmem
    have hlen : prefs.types.length > 0 := by
      cases h : prefs.types with
      | nil => exact absurd h hne
      | cons a l => simp [h]
    have hidx := jsIndexOf_eq_neg_one prefs.types rc hmem
    have hlt : ¬ jsIndexOf prefs.types rc ≥ 0 := by rw [hidx]; norm_num
    simp only [getPreferenceWeight, ← hrc, if_pos hlen, if_neg hlt]
    norm_num
  · intro hnil
    simp [getPreferenceWeight, hnil]

/-- Witness for `preference_multiplier_spec`: an arterial edge against the
ranked list `[highway, arterial]` gets multiplier `0.6`, and against the
list `[highway]` gets the `1.5` penalty. -/
theorem preference_multiplier_spec_witness :
    getPreferenceWeight
      { targetNodeId := "b", roadSegmentId := "s0", weight := 5
        roadClass := some .arterial }
      (some { types := [.highway, .arterial], surfaces := [] }) = 3/5 ∧
    getPreferenceWeight
      { targetNodeId := "b", roadSegmentId := "s0", weight := 5
        roadClass := some .arterial }
      (some { types := [.highway], surfaces := [] }) = 3/2 := by
  constructor
  · have h := preference_multiplier_spec
      { targetNodeId := "b", roadSegmentId := "s0", weight := 5
        roadClass := some .arterial }
      { types := [.highway, .arterial], surfaces := [] } .arterial rfl
    have := h.1 1 (by decide) (by decide)
    rw [this]; norm_num
  · have h := preference_multiplier_spec
      { targetNodeId := "b", roadSegmentId := "s0", weight := 5
        roadClass := some .arterial }
      { types := [.highway], surfaces := [] } .arterial rfl
    exact h.2.1 (by decide) (by decide)

/-- C9: an edge with an absent road class is treated as class `local` both
by the preference multiplier and by the per-road-class bucketing of the
solver's result assembly. -/
theorem absent_roadClass_treated_as_local (edge : GraphEdge)
    (h : edge.roadClass = none) :
    (∀ prefs, getPreferenceWeight edge prefs =
      getPreferenceWeight { edge with roadClass := some .local_ } prefs) ∧
    (∀ acc : RoadClassRecord × RoadClassRecord,
      bucketStep acc edge =
        (acc.1.bump .local_ edge.weight,
         acc.2.bump .local_ (calculateTravelTime edge.weight .local_))) := by
  constructor
  · intro prefs
    cases prefs with
    | none => rfl
    | some p => simp [getPreferenceWeight, h]
  · intro acc
    simp [bucketStep, h]

/-- Witness for `absent_roadClass_treated_as_local` at a concrete classless
edge: the `local` bucket receives its weight and travel time. -/
theorem absent_roadClass_treated_as_local_witness :
    bucketStep (createEmptyRoadClassRecord, createEmptyRoadClassRecord)
      { targetNodeId := "b", roadSegmentId := "s7", weight := 100, roadClass := none } =
      ({ createEmptyRoadClassRecord with local_ := 100 },
       { createEmptyRoadClassRecord with local_ := 36/5 }) := by
  have h := (absent_roadClass_treated_as_local
    { targetNodeId := "b", roadSegmentId := "s7", weight := 100, roadClass := none }
    rfl).2 (createEmptyRoadClassRecord, createEmptyRoadClassRecord)
  rw [h]
  norm_num [RoadClassRecord.bump, createEmptyRoadClassRecord, calculateTravelTime,
    ROAD_SPEEDS]

theorem DMap.get_nil {α : Type} (dflt : α) (k' : String) :
    DMap.get ([] : DMap α) dflt k' = dflt := rfl

theorem DMap.get_cons {α : Type} (a : String) (b : α) (rest : DMap α)
    (dflt : α) (k' : String) :
    DMap.get ((a, b) :: rest) dflt k' = if a = k' then b else rest.get dflt k' := by
  by_cases h : a = k' <;> simp [DMap.get, List.find?, h]

/-- JavaScript property-assignment then read: reading the written key gives
the written value, every other key is unchanged. -/
theorem DMap.get_set {α : Type} (m : DMap α) (k : String) (v : α) (dflt : α)
    (k' : String) :
    (m.set k v).get dflt k' = if k' = k then v else m.get dflt k' := by
  by_cases h : m.any (fun kv => kv.1 = k)
  · have hmap : ∀ (m' : DMap α),
        DMap.get (m'.map (fun kv => if kv.1 = k then (k, v) else kv)) dflt k' =
          if k' = k ∧ (m'.any (fun kv => kv.1 = k)) = true then v
          else m'.get dflt k' := by
      intro m'
      induction m' with
      | nil => simp [DMap.get_nil]
      | cons kv rest ih =>
        obtain ⟨a, b⟩ := kv
        by_cases hak : a = k
        · by_cases hk2 : k' = k
          · subst hak; subst hk2
            simp [DMap.get_cons, List.any_cons]
          · subst hak
            simp [DMap.get_cons, hk2, Ne.symm hk2, ih]
        · by_cases hak2 : a = k'
          · subst hak2
            simp [DMap.get_cons, hak]
          · have hd : (decide (a = k)) = false := by simp [hak]
            simp only [List.map_cons, if_neg hak, DMap.get_cons, if_neg hak2, ih,
              List.any_cons, hd, Bool.false_or]
    simp only [DMap.set, if_pos h]
    rw [hmap m]
    simp [h]
  · have hnone : m.find? (fun kv => kv.1 = k) = none := by
      rw [List.find?_eq_none]
      intro kv hkv
      simp only [List.any_eq_true, not_exists, not_and] at h
      simpa using h kv hkv
    simp only [DMap.set, if_neg h]
    by_cases hk2 : k' = k
    · subst hk2
      simp [DMap.get, List.find?_append, hnone]
    · simp only [DMap.get, List.find?_append]
      have h1 : List.find? (fun kv => decide (kv.1 = k')) [(k, v)] = none := by
        simp [List.find?, Ne.symm hk2]
      cases hfm : List.find? (fun kv => decide (kv.1 = k')) m with
      | none => simp [hfm, h1, if_neg hk2]
      | some x => simp [hfm, if_neg hk2]

theorem DMap.get_keyed_map {α : Type} (l : List (String × GraphNode))
    (f : String × GraphNode → α) (dflt : α) (v : String) :
    DMap.get (l.map (fun kv => (kv.1, f kv))) dflt v =
      ((l.find? (fun kv => kv.1 = v)).map f).getD dflt := by
  induction l with
  | nil => simp [DMap.get_nil]
  | cons kv rest ih =>
    obtain ⟨a, b⟩ := kv
    by_cases hav : a = v
    · simp [DMap.get_cons, List.find?, hav]
    · simp [DMap.get_cons, List.find?, hav, ih]

theorem get_init_list (l : List (String × GraphNode)) (s v : String) :
    DMap.get (l.map (fun kv => (kv.1, if kv.1 = s then JNum.num 0 else JNum.inf)))
      .undef v =
      if (l.find? (fun kv => kv.1 = v)).isSome then
        (if v = s then JNum.num 0 else JNum.inf)
      else JNum.undef := by
  induction l with
  | nil => simp [DMap.get_nil]
  | cons kv rest ih =>
    obtain ⟨a, b⟩ := kv
    by_cases hav : a = v
    · subst hav
      rw [List.find?_cons_of_pos _ (by simp)]
      simp [DMap.get_cons]
    · rw [List.find?_cons_of_neg _ (by simp [hav])]
      simp [DMap.get_cons, hav, ih]

theorem isSome_option_map {α β : Type} (f : α → β) (x : Option α) :
    (x.map f).isSome = x.isSome := by
  cases x <;> rfl

theorem initState_distances_get (g : RoutingGraph) (s v : String) :
    (initState g s).distances.get .undef v =
      if (g.find? v).isSome then (if v = s then JNum.num 0 else JNum.inf)
      else JNum.undef := by
  simp only [RoutingGraph.find?, isSome_option_map]
  exact get_init_list g.nodes s v

theorem initState_actual_get (g : RoutingGraph) (s v : String) :
    (initState g s).actualDistances.get .undef v =
      if (g.find? v).isSome then (if v = s then JNum.num 0 else JNum.inf)
      else JNum.undef := by
  simp only [RoutingGraph.find?, isSome_option_map]
  exact get_init_list g.nodes s v

theorem get_init_prev_list (l : List (String × GraphNode)) (v : String) :
    DMap.get (l.map (fun kv => ((kv.1 : String),
      (none : Option (String × GraphEdge))))) none v = none := by
  induction l with
  | nil => simp [DMap.get_nil]
  | cons kv rest ih =>
    by_cases hav : kv.1 = v
    · simp [DMap.get_cons, hav]
    · simp [DMap.get_cons, hav, ih]

theorem initState_previous_get (g : RoutingGraph) (s v : String) :
    (initState g s).previous.get none v = none := by
  have h := get_init_prev_list g.nodes v
  simpa [initState] using h

/-- Position of a node in the visit-order list (`0` when absent-or-first). -/
def visitIdx : List String → String → ℕ
  | [], _ => 0
  | x :: xs, v => if x = v then 0 else visitIdx xs v + 1

theorem visitIdx_lt_length {l : List String} {v : String} (h : v ∈ l) :
    visitIdx l v < l.length := by
  induction l with
  | nil => simp at h
  | cons x xs ih =>
    by_cases hx : x = v
    · simp [visitIdx, hx]
    · have : v ∈ xs := by
        rcases List.mem_cons.mp h with h' | h'
        · exact absurd h'.symm hx
        · exact h'
      simp only [visitIdx, if_neg hx, List.length_cons]
      exact Nat.succ_lt_succ (ih this)

theorem visitIdx_append_left {l : List String} {v : String} (h : v ∈ l)
    (l₂ : List String) : visitIdx (l ++ l₂) v = visitIdx l v := by
  induction l with
  | nil => simp at h
  | cons x xs ih =>
    by_cases hx : x = v
    · simp [visitIdx, hx]
    · have : v ∈ xs := by
        rcases List.mem_cons.mp h with h' | h'
        · exact absurd h'.symm hx
        · exact h'
      simp [visitIdx, hx, ih this]

theorem visitIdx_append_self {l : List String} {v : String} (h : v ∉ l) :
    visitIdx (l ++ [v]) v = l.length := by
  induction l with
  | nil => simp [visitIdx]
  | cons x xs ih =>
    have hx : x ≠ v := fun hc => h (hc ▸ List.mem_cons_self x xs)
    have : v ∉ xs := fun hc => h (List.mem_cons_of_mem x hc)
    simp [visitIdx, hx, ih this]

theorem JNum.lt_true_exists_num_left {x y : JNum} (h : x.lt y = true) :
    ∃ q, x = .num q := by
  cases x <;> cases y <;> simp [JNum.lt] at h ⊢

theorem JNum.lt_true_ne_undef_right {x y : JNum} (h : x.lt y = true) :
    y ≠ .undef := by
  cases x <;> cases y <;> simp [JNum.lt] at h ⊢

theorem JNum.add_num_eq_num {x : JNum} {w n : ℚ} (h : x.add (.num w) = .num n) :
    ∃ q, x = .num q ∧ n = q + w := by
  cases x with
  | undef => simp [JNum.add] at h
  | inf => simp [JNum.add] at h
  | num q =>
    simp only [JNum.add, JNum.num.injEq] at h
    exact ⟨q, rfl, h.symm⟩

/-- The solver-loop invariant: every predecessor entry points at an
already-visited node that was visited strictly earlier, carries the actual
distance of its target as predecessor-distance plus edge weight, never
points at itself, and concerns only keys of the graph; finite weighted
distances come with finite actual distances and exactly cover the graph's
keys; a node with a finite actual distance and no predecessor is the start
at distance `0`; the visit order is duplicate-free. -/
structure DInv (g : RoutingGraph) (s : String) (S : DState) : Prop where
  prevVisited : ∀ v u e, S.previous.get none v = some (u, e) → u ∈ S.visited
  prevSum : ∀ v u e, S.previous.get none v = some (u, e) →
    ∃ au, S.actualDistances.get .undef u = .num au ∧
      S.actualDistances.get .undef v = .num (au + e.weight)
  prevOrder : ∀ v u e, S.previous.get none v = some (u, e) → v ∈ S.visited →
    visitIdx S.visited u < visitIdx S.visited v
  prevNe : ∀ v u e, S.previous.get none v = some (u, e) → u ≠ v
  prevKeys : ∀ v u e, S.previous.get none v = some (u, e) →
    (g.find? v).isSome ∧ (g.find? u).isSome
  finiteActual : ∀ v d, S.distances.get .undef v = .num d →
    ∃ a, S.actualDistances.get .undef v = .num a
  noneStart : ∀ v a, S.previous.get none v = none →
    S.actualDistances.get .undef v = .num a → v = s ∧ a = 0
  keysDist : ∀ v, (S.distances.get .undef v ≠ .undef) ↔ (g.find? v).isSome = true
  nodupVisited : S.visited.Nodup

theorem initState_inv (g : RoutingGraph) (s : String) : DInv g s (initState g s) := by
  constructor
  · intro v u e hp; rw [initState_previous_get] at hp; exact absurd hp (by simp)
  · intro v u e hp; rw [initState_previous_get] at hp; exact absurd hp (by simp)
  · intro v u e hp; rw [initState_previous_get] at hp; exact absurd hp (by simp)
  · intro v u e hp; rw [initState_previous_get] at hp; exact absurd hp (by simp)
  · intro v u e hp; rw [initState_previous_get] at hp; exact absurd hp (by simp)
  · intro v d hd
    rw [initState_distances_get] at hd
    rw [initState_actual_get]
    by_cases h1 : (g.find? v).isSome
    · rw [if_pos h1] at hd ⊢
      by_cases h2 : v = s
      · rw [if_pos h2] at hd ⊢
        exact ⟨0, rfl⟩
      · rw [if_neg h2] at hd
        exact absurd hd (by simp)
    · rw [if_neg h1] at hd
      exact absurd hd (by simp)
  · intro v a hp ha
    rw [initState_actual_get] at ha
    by_cases h1 : (g.find? v).isSome
    · rw [if_pos h1] at ha
      by_cases h2 : v = s
      · refine ⟨h2, ?_⟩
        rw [if_pos h2] at ha
        injection ha with h
        exact h.symm
      · rw [if_neg h2] at ha
        exact absurd ha (by simp)
    · rw [if_neg h1] at ha
      exact absurd ha (by simp)
  · intro v
    rw [initState_distances_get]
    by_cases h1 : (g.find? v).isSome
    · rw [if_pos h1]
      by_cases h2 : v = s
      · rw [if_pos h2]; simp [h1]
      · rw [if_neg h2]; simp [h1]
    · rw [if_neg h1]; simp [h1]
  · exact List.nodup_nil

theorem relaxEdge_visited (prefs : Option RoadPreferences) (c : String)
    (S : DState) (e : GraphEdge) : (relaxEdge prefs c S e).visited = S.visited := by
  simp only [relaxEdge]
  split_ifs <;> rfl

/-- Relaxation never touches the maps at visited keys (it writes only the
unvisited target). -/
theorem relaxEdge_frozen (prefs : Option RoadPreferences) (c : String)
    (S : DState) (e : GraphEdge) (v : String) (hv : v ∈ S.visited) :
    (relaxEdge prefs c S e).distances.get .undef v = S.distances.get .undef v ∧
    (relaxEdge prefs c S e).actualDistances.get .undef v =
      S.actualDistances.get .undef v ∧
    (relaxEdge prefs c S e).previous.get none v = S.previous.get none v := by
  simp only [relaxEdge]
  by_cases h1 : S.visited.contains e.targetNodeId
  · have hm : e.targetNodeId ∈ S.visited := List.elem_iff.mp h1
    simp [hm]
  · have htgt : e.targetNodeId ∉ S.visited := by
      intro hc; exact h1 (List.elem_iff.mpr hc)
    have hne : v ≠ e.targetNodeId := fun hc => htgt (hc ▸ hv)
    rw [if_neg h1]
    split_ifs with h2
    · simp [DMap.get_set, hne]
    · exact ⟨rfl, rfl, rfl⟩

theorem relaxEdge_inv {g : RoutingGraph} {s : String} {prefs : Option RoadPreferences}
    {c : String} {S : DState} (hInv : DInv g s S) (hc : c ∈ S.visited)
    (hcKey : (g.find? c).isSome) (e : GraphEdge) :
    DInv g s (relaxEdge prefs c S e) := by
  simp only [relaxEdge]
  by_cases h1 : S.visited.contains e.targetNodeId
  · have hm : e.targetNodeId ∈ S.visited := List.elem_iff.mp h1
    simpa [hm] using hInv
  · have htgt : e.targetNodeId ∉ S.visited := by
      intro hcm; exact h1 (List.elem_iff.mpr hcm)
    rw [if_neg h1]
    split_ifs with h2
    · -- the relaxation branch
      obtain ⟨nd, hnd⟩ := JNum.lt_true_exists_num_left h2
      obtain ⟨dc, hdc, hndval⟩ := JNum.add_num_eq_num hnd
      obtain ⟨ac, hac⟩ := hInv.finiteActual c dc hdc
      have hKeyTgt : (g.find? e.targetNodeId).isSome :=
        (hInv.keysDist e.targetNodeId).mp (JNum.lt_true_ne_undef_right h2)
      have hcne : c ≠ e.targetNodeId := fun hcm => htgt (hcm ▸ hc)
      have hnewA : (S.actualDistances.get .undef c).add (.num e.weight) =
          .num (ac + e.weight) := by rw [hac]; rfl
      constructor
      · intro v u e' hp
        rw [DMap.get_set] at hp
        by_cases hv : v = e.targetNodeId
        · rw [if_pos hv] at hp
          obtain ⟨h3, h4⟩ := Prod.mk.injEq .. ▸ Option.some.injEq .. ▸ hp
          exact h3 ▸ hc
        · rw [if_neg hv] at hp
          exact hInv.prevVisited v u e' hp
      · intro v u e' hp
        rw [DMap.get_set] at hp
        by_cases hv : v = e.targetNodeId
        · rw [if_pos hv] at hp
          have h3 : u = c := congrArg (fun o => (o.getD (c, e)).1) hp.symm
          have h4 : e' = e := congrArg (fun o => (o.getD (c, e)).2) hp.symm
          subst h3; subst h4; subst hv
          refine ⟨ac, ?_, ?_⟩
          · rw [DMap.get_set, if_neg hcne]; exact hac
          · rw [DMap.get_set, if_pos rfl]; exact hnewA
        · rw [if_neg hv] at hp
          obtain ⟨au, hau, hav⟩ := hInv.prevSum v u e' hp
          have hu : u ∈ S.visited := hInv.prevVisited v u e' hp
          have hune : u ≠ e.targetNodeId := fun hcm => htgt (hcm ▸ hu)
          refine ⟨au, ?_, ?_⟩
          · rw [DMap.get_set, if_neg hune]; exact hau
          · rw [DMap.get_set, if_neg hv]; exact hav
      · intro v u e' hp hv
        rw [DMap.get_set] at hp
        by_cases hvt : v = e.targetNodeId
        · exact absurd (hvt ▸ hv) htgt
        · rw [if_neg hvt] at hp
          exact hInv.prevOrder v u e' hp hv
      · intro v u e' hp
        rw [DMap.get_set] at hp
        by_cases hvt : v = e.targetNodeId
        · rw [if_pos hvt] at hp
          have h3 : u = c := congrArg (fun o => (o.getD (c, e)).1) hp.symm
          subst h3; subst hvt
          exact hcne
        · rw [if_neg hvt] at hp
          exact hInv.prevNe v u e' hp
      · intro v u e' hp
        rw [DMap.get_set] at hp
        by_cases hvt : v = e.targetNodeId
        · rw [if_pos hvt] at hp
          have h3 : u = c := congrArg (fun o => (o.getD (c, e)).1) hp.symm
          subst h3; subst hvt
          exact ⟨hKeyTgt, hcKey⟩
        · rw [if_neg hvt] at hp
          exact hInv.prevKeys v u e' hp
      · intro v d hd
        rw [DMap.get_set] at hd
        by_cases hvt : v = e.targetNodeId
        · subst hvt
          exact ⟨ac + e.weight, by rw [DMap.get_set, if_pos rfl]; exact hnewA⟩
        · rw [if_neg hvt] at hd
          obtain ⟨a, ha⟩ := hInv.finiteActual v d hd
          exact ⟨a, by rw [DMap.get_set, if_neg hvt]; exact ha⟩
      · intro v a hp ha
        rw [DMap.get_set] at hp
        by_cases hvt : v = e.targetNodeId
        · rw [if_pos hvt] at hp
          exact absurd hp (by simp)
        · rw [if_neg hvt] at hp
          rw [DMap.get_set, if_neg hvt] at ha
          exact hInv.noneStart v a hp ha
      · intro v
        rw [DMap.get_set]
        by_cases hvt : v = e.targetNodeId
        · rw [if_pos hvt]
          subst hvt
          rw [hnd]
          simp [hKeyTgt]
        · rw [if_neg hvt]
          exact hInv.keysDist v
      · exact hInv.nodupVisited
    · exact hInv

theorem foldl_relaxEdge_visited (prefs : Option RoadPreferences) (c : String) :
    ∀ (es : List GraphEdge) (S : DState),
      (es.foldl (relaxEdge prefs c) S).visited = S.visited := by
  intro es
  induction es with
  | nil => intro S; rfl
  | cons e rest ih =>
    intro S
    rw [List.foldl_cons, ih, relaxEdge_visited]

theorem visitNode_visited (g : RoutingGraph) (prefs : Option RoadPreferences)
    (c : String) (S : DState) : (visitNode g prefs c S).visited = S.visited := by
  unfold visitNode
  cases g.find? c with
  | none => rfl
  | some node => exact foldl_relaxEdge_visited prefs c node.edges S

theorem foldl_relaxEdge_inv {g : RoutingGraph} {s : String}
    {prefs : Option RoadPreferences} {c : String} (hcKey : (g.find? c).isSome) :
    ∀ (es : List GraphEdge) (S : DState), DInv g s S → c ∈ S.visited →
      DInv g s (es.foldl (relaxEdge prefs c) S) := by
  intro es
  induction es with
  | nil => intro S h _; exact h
  | cons e rest ih =>
    intro S h hc
    rw [List.foldl_cons]
    exact ih (relaxEdge prefs c S e) (relaxEdge_inv h hc hcKey e)
      (by rw [relaxEdge_visited]; exact hc)

theorem visitNode_inv {g : RoutingGraph} {s : String} {prefs : Option RoadPreferences}
    {c : String} {S : DState} (h : DInv g s S) (hc : c ∈ S.visited) :
    DInv g s (visitNode g prefs c S) := by
  unfold visitNode
  cases hf : g.find? c with
  | none => exact h
  | some node =>
    exact foldl_relaxEdge_inv (by rw [hf]; rfl) node.edges S h hc

theorem foldl_relaxEdge_frozen (prefs : Option RoadPreferences) (c : String) :
    ∀ (es : List GraphEdge) (S : DState) (v : String), v ∈ S.visited →
      (es.foldl (relaxEdge prefs c) S).distances.get .undef v =
        S.distances.get .undef v ∧
      (es.foldl (relaxEdge prefs c) S).actualDistances.get .undef v =
        S.actualDistances.get .undef v ∧
      (es.foldl (relaxEdge prefs c) S).previous.get none v =
        S.previous.get none v := by
  intro es
  induction es with
  | nil => intro S v _; exact ⟨rfl, rfl, rfl⟩
  | cons e rest ih =>
    intro S v hv
    rw [List.foldl_cons]
    have h1 := relaxEdge_frozen prefs c S e v hv
    have h2 := ih (relaxEdge prefs c S e) v (by rw [relaxEdge_visited]; exact hv)
    exact ⟨h2.1.trans h1.1, h2.2.1.trans h1.2.1, h2.2.2.trans h1.2.2⟩

theorem visitNode_frozen (g : RoutingGraph) (prefs : Option RoadPreferences)
    (c : String) (S : DState) (v : String) (hv : v ∈ S.visited) :
    (visitNode g prefs c S).distances.get .undef v = S.distances.get .undef v ∧
    (visitNode g prefs c S).actualDistances.get .undef v =
      S.actualDistances.get .undef v ∧
    (visitNode g prefs c S).previous.get none v = S.previous.get none v := by
  unfold visitNode
  cases g.find? c with
  | none => exact ⟨rfl, rfl, rfl⟩
  | some node => exact foldl_relaxEdge_frozen prefs c node.edges S v hv

theorem DInv_queue {g : RoutingGraph} {s : String} {S : DState}
    (h : DInv g s S) (q : List (String × ℚ)) : DInv g s { S with queue := q } :=
  ⟨h.prevVisited, h.prevSum, h.prevOrder, h.prevNe, h.prevKeys, h.finiteActual,
   h.noneStart, h.keysDist, h.nodupVisited⟩

theorem DInv_visit {g : RoutingGraph} {s : String} {S : DState}
    (h : DInv g s S) (c : String) (hc : c ∉ S.visited) :
    DInv g s { S with visited := S.visited ++ [c] } := by
  constructor
  · intro v u e hp
    exact List.mem_append_left _ (h.prevVisited v u e hp)
  · exact h.prevSum
  · intro v u e hp hv
    have hu := h.prevVisited v u e hp
    rcases List.mem_append.mp hv with hv1 | hv2
    · rw [visitIdx_append_left hu, visitIdx_append_left hv1]
      exact h.prevOrder v u e hp hv1
    · have hvc : v = c := by simpa using hv2
      subst hvc
      rw [visitIdx_append_left hu, visitIdx_append_self hc]
      exact visitIdx_lt_length hu
  · exact h.prevNe
  · exact h.prevKeys
  · exact h.finiteActual
  · exact h.noneStart
  · exact h.keysDist
  · simp [List.nodup_append, h.nodupVisited, hc]

theorem loopE_inv {g : RoutingGraph} {s : String} {prefs : Option RoadPreferences}
    {endNodeId : String} : ∀ (fuel : ℕ) (S : DState), DInv g s S →
    DInv g s (loopE g prefs endNodeId fuel S) := by
  intro fuel
  induction fuel with
  | zero => intro S h; simpa [loopE] using h
  | succ n ih =>
    intro S h
    rw [loopE]
    cases hq : S.queue with
    | nil => exact h
    | cons kv rest =>
      obtain ⟨currentId, pr⟩ := kv
      dsimp only
      by_cases hvis : ((S.visited).contains currentId : Bool)
      · rw [if_pos hvis]
        exact ih _ (DInv_queue h rest)
      · rw [if_neg hvis]
        have hnm : currentId ∉ S.visited := fun hm => hvis (List.elem_iff.mpr hm)
        by_cases hend : currentId = endNodeId
        · rw [if_pos hend]
          exact DInv_visit (DInv_queue h rest) currentId hnm
        · rw [if_neg hend]
          refine ih _ (visitNode_inv (DInv_visit (DInv_queue h rest) currentId hnm) ?_)
          exact List.mem_append_right _ (List.mem_singleton_self currentId)

theorem loopN_inv {g : RoutingGraph} {s : String} {prefs : Option RoadPreferences} :
    ∀ (fuel : ℕ) (S : DState), DInv g s S →
    DInv g s (loopN g prefs fuel S) := by
  intro fuel
  induction fuel with
  | zero => intro S h; simpa [loopN] using h
  | succ n ih =>
    intro S h
    rw [loopN]
    cases hq : S.queue with
    | nil => exact h
    | cons kv rest =>
      obtain ⟨currentId, pr⟩ := kv
      dsimp only
      by_cases hvis : ((S.visited).contains currentId : Bool)
      · rw [if_pos hvis]
        exact ih _ (DInv_queue h rest)
      · rw [if_neg hvis]
        have hnm : currentId ∉ S.visited := fun hm => hvis (List.elem_iff.mpr hm)
        refine ih _ (visitNode_inv (DInv_visit (DInv_queue h rest) currentId hnm) ?_)
        exact List.mem_append_right _ (List.mem_singleton_self currentId)

/-- Rank of a node for chain induction: its visit index, or the list length
when unvisited (a predecessor chain always steps into the visited region and
then strictly descends the visit order). -/
def vrank (l : List String) (v : String) : ℕ :=
  if v ∈ l then visitIdx l v else l.length

theorem vrank_le_length (l : List String) (v : String) : vrank l v ≤ l.length := by
  unfold vrank
  split_ifs with h
  · exact le_of_lt (visitIdx_lt_length h)
  · exact le_rfl

/-- Master lemma about the reconstruction loop run on an invariant-satisfying
state: starting from any node with a finite actual distance, the walk reaches
the start node, its edge weights sum to exactly that actual distance, and the
node-id sequence is duplicate-free step to step and stays inside the graph's
keys. -/
theorem reconstruct_master {g : RoutingGraph} {s : String} {S : DState}
    (hInv : DInv g s S) (hs : (g.find? s).isSome) :
    ∀ (n : ℕ) (v : String) (a : ℚ),
      vrank S.visited v < n →
      S.actualDistances.get .undef v = .num a →
      ∀ fuel, vrank S.visited v + 1 ≤ fuel →
        (((reconstruct S.previous fuel v).2.map (fun e => e.weight)).sum = a) ∧
        ((reconstruct S.previous fuel v).1.head? = some s) ∧
        ((reconstruct S.previous fuel v).1.getLast? = some v) ∧
        List.Chain' (fun x y => x ≠ y ∧ (g.find? x).isSome ∧ (g.find? y).isSome)
          (reconstruct S.previous fuel v).1 ∧
        (∀ x ∈ (reconstruct S.previous fuel v).1, (g.find? x).isSome) := by
  intro n
  induction n with
  | zero => intro v a h; omega
  | succ n ih =>
    intro v a hrank ha fuel hfuel
    obtain ⟨f2, rfl⟩ : ∃ f2, fuel = f2 + 1 := ⟨fuel - 1, by omega⟩
    rw [reconstruct]
    cases hp : S.previous.get none v with
    | none =>
      obtain ⟨hvs, ha0⟩ := hInv.noneStart v a hp ha
      subst hvs
      refine ⟨by simpa using ha0.symm, rfl, rfl, List.chain'_singleton v, ?_⟩
      intro x hx
      rw [List.mem_singleton] at hx
      exact hx ▸ hs
    | some ue =>
      obtain ⟨u, e⟩ := ue
      obtain ⟨au, hau, hav⟩ := hInv.prevSum v u e hp
      have haeq : a = au + e.weight := by
        rw [ha] at hav
        injection hav
      have hu : u ∈ S.visited := hInv.prevVisited v u e hp
      have hrank_u : vrank S.visited u < vrank S.visited v := by
        unfold vrank
        rw [if_pos hu]
        by_cases hv : v ∈ S.visited
        · rw [if_pos hv]
          exact hInv.prevOrder v u e hp hv
        · rw [if_neg hv]
          exact visitIdx_lt_length hu
      have ihu := ih u au (by omega) hau f2 (by omega)
      obtain ⟨ihsum, ihhead, ihlast, ihchain, ihmem⟩ := ihu
      have hnsne : (reconstruct S.previous f2 u).1 ≠ [] := by
        intro hc
        rw [hc] at ihlast
        simp at ihlast
      dsimp only
      refine ⟨?_, ?_, ?_, ?_, ?_⟩
      · rw [List.map_append, List.sum_append]
        simp [ihsum, haeq]
      · rw [List.head?_append_of_ne_nil _ hnsne]
        exact ihhead
      · rw [List.getLast?_concat]
      · rw [List.chain'_append]
        refine ⟨ihchain, List.chain'_singleton v, ?_⟩
        intro x hx y hy
        rw [ihlast, Option.mem_def, Option.some.injEq] at hx
        rw [List.head?_singleton, Option.mem_def, Option.some.injEq] at hy
        subst hx; subst hy
        exact ⟨hInv.prevNe v u e hp, (hInv.prevKeys v u e hp).2,
          (hInv.prevKeys v u e hp).1⟩
      · intro x hx
        rcases List.mem_append.mp hx with hx1 | hx2
        · exact ihmem x hx1
        · rw [List.mem_singleton] at hx2
          exact hx2 ▸ (hInv.prevKeys v u e hp).1

/-- What the result-assembly step guarantees on an invariant-satisfying
state: the reported distance is exactly the sum of the weights of the
reconstructed edges, the node-id sequence runs from the start to the target
through pairwise-distinct graph keys, the coordinate path is the node
positions, and the travel time is the total of the travel-time buckets. -/
theorem extract_spec {g : RoutingGraph} {s t : String} {S : DState}
    (hInv : DInv g s S) (hs : (g.find? s).isSome) (ht : (g.find? t).isSome)
    {res : RouteResult} (h : extract g S t = some res) :
    res.distance =
      .num (((reconstruct S.previous (S.visited.length + 1) t).2.map
        (fun e => e.weight)).sum) ∧
    res.nodeIds = (reconstruct S.previous (S.visited.length + 1) t).1 ∧
    res.nodeIds.head? = some s ∧
    res.nodeIds.getLast? = some t ∧
    List.Chain' (fun x y => x ≠ y ∧ (g.find? x).isSome ∧ (g.find? y).isSome)
      res.nodeIds ∧
    (∀ x ∈ res.nodeIds, (g.find? x).isSome) ∧
    res.path = res.nodeIds.map (fun id => ((g.find? id).map (·.position)).getD ⟨0, 0⟩) ∧
    res.travelTime = res.travelTimeByRoadClass.total := by
  rw [extract] at h
  split_ifs at h with hinf
  have hne : S.distances.get .undef t ≠ .undef := (hInv.keysDist t).mpr ht
  obtain ⟨d, hd⟩ : ∃ d, S.distances.get .undef t = .num d := by
    cases hcase : S.distances.get .undef t with
    | undef => exact absurd hcase hne
    | inf => rw [hcase] at hinf; exact absurd rfl hinf
    | num q => exact ⟨q, rfl⟩
  obtain ⟨a, ha⟩ := hInv.finiteActual t d hd
  have hmaster := reconstruct_master hInv hs (vrank S.visited t + 1) t a
    (Nat.lt_succ_self _) ha (S.visited.length + 1)
    (Nat.succ_le_succ (vrank_le_length _ _))
  obtain ⟨hsum, hhead, hlast, hchain, hmem⟩ := hmaster
  obtain rfl : _ = res := Option.some.injEq .. ▸ h
  refine ⟨?_, rfl, hhead, hlast, hchain, hmem, rfl, rfl⟩
  rw [ha, hsum]

/-- C2: whenever the solver returns a result for a start/end pair of graph
keys, the reported `distance` is exactly the (unweighted) sum of the weights
of the edges along the returned path — the preference-weighted cost that
drove the search never leaks into the result. -/
theorem dijkstra_distance_is_true_sum (g : RoutingGraph) (s t : String)
    (prefs : Option RoadPreferences) (res : RouteResult)
    (hs : (g.find? s).isSome) (ht : (g.find? t).isSome)
    (h : dijkstra g s t prefs = some res) :
    res.distance =
      .num (((dijkstraPathEdges g s t prefs).map (fun e => e.weight)).sum) := by
  have hInv : DInv g s (dijkstraRun g prefs s t) :=
    loopE_inv (fuelBound g) (initState g s) (initState_inv g s)
  exact (extract_spec hInv hs ht h).1

/-- The self-route result: popping the start immediately breaks the loop
(the start equals the target), leaving an untouched predecessor map, so the
reconstruction yields the single node at distance `0`. -/
theorem dijkstra_self_result (g : RoutingGraph) (x : String)
    (prefs : Option RoadPreferences) (nd : GraphNode) (h : g.find? x = some nd) :
    dijkstra g x x prefs = some
      { path := [nd.position], distance := .num 0, nodeIds := [x]
        distanceByRoadClass := createEmptyRoadClassRecord
        travelTime := 0
        travelTimeByRoadClass := createEmptyRoadClassRecord } := by
  have hfb : fuelBound g = (totalOutDeg g + 1) + 1 := rfl
  have hrun : dijkstraRun g prefs x x =
      { distances := g.nodes.map (fun kv =>
          (kv.1, if kv.1 = x then JNum.num 0 else JNum.inf))
        actualDistances := g.nodes.map (fun kv =>
          (kv.1, if kv.1 = x then JNum.num 0 else JNum.inf))
        previous := g.nodes.map (fun kv => (kv.1, none))
        visited := [x]
        queue := [] } := by
    unfold dijkstraRun initState
    rw [hfb, loopE]
    simp
  have hsome : (g.find? x).isSome := by rw [h]; rfl
  unfold dijkstra
  rw [hrun]
  unfold extract
  have hsomeL : (List.find? (fun kv => kv.1 = x) g.nodes).isSome = true := by
    have h3 := hsome
    simp only [RoutingGraph.find?] at h3
    rwa [isSome_option_map] at h3
  have hd : DMap.get (g.nodes.map (fun kv =>
      (kv.1, if kv.1 = x then JNum.num 0 else JNum.inf))) .undef x = JNum.num 0 := by
    rw [get_init_list, if_pos hsomeL, if_pos rfl]
  have hp : DMap.get (g.nodes.map (fun kv => ((kv.1 : String),
      (none : Option (String × GraphEdge))))) none x = none :=
    get_init_prev_list g.nodes x
  have hex : ∃ y, (x, y) ∈ g.nodes := by
    have h2 := h
    simp only [RoutingGraph.find?] at h2
    cases hfind : List.find? (fun kv => kv.1 = x) g.nodes with
    | none => rw [hfind] at h2; simp at h2
    | some kv =>
      have hmem := List.mem_of_find?_eq_some hfind
      have hkey : kv.1 = x := by simpa using List.find?_some hfind
      rw [hfind] at h2
      have hnd : kv.2 = nd := by simpa using h2
      exact ⟨nd, by rw [← hkey, ← hnd]; exact hmem⟩
  simp only [hd, hp, JNum.isInf, reconstruct, List.length_cons, List.length_nil]
  norm_num [reconstruct, hp, h, hex, RoadClassRecord.total, createEmptyRoadClassRecord]

/-- C10: routing from a node to itself never reports "no path": the result
is non-null with distance `0`, the single-position path, and all-zero
road-class buckets. -/
theorem dijkstra_self_route (g : RoutingGraph) (x : String)
    (prefs : Option RoadPreferences) (nd : GraphNode) (h : g.find? x = some nd) :
    dijkstra g x x prefs = some
      { path := [nd.position], distance := .num 0, nodeIds := [x]
        distanceByRoadClass := createEmptyRoadClassRecord
        travelTime := 0
        travelTimeByRoadClass := createEmptyRoadClassRecord } :=
  dijkstra_self_result g x prefs nd h

/-- One-node witness graph. -/
def wNode1 : GraphNode := { id := "a", position := ⟨49, -125⟩, edges := [] }

/-- One-node witness graph (a single dead-end node, no edges). -/
def wGraph1 : RoutingGraph := { nodes := [("a", wNode1)] }

/-- Witness for `dijkstra_self_route` on the concrete one-node graph. -/
theorem dijkstra_self_route_witness :
    dijkstra wGraph1 "a" "a" none = some
      { path := [⟨49, -125⟩], distance := .num 0, nodeIds := ["a"]
        distanceByRoadClass := createEmptyRoadClassRecord
        travelTime := 0
        travelTimeByRoadClass := createEmptyRoadClassRecord } :=
  dijkstra_self_route wGraph1 "a" none wNode1 (by rfl)

/-- Witness for `dijkstra_distance_is_true_sum` on the concrete one-node
graph: the self-route result reports distance `num 0`, the sum over the
empty traversed-edge list. -/
theorem dijkstra_distance_is_true_sum_witness :
    (Option.getD (dijkstra wGraph1 "a" "a" none)
        { path := [], distance := .undef, nodeIds := []
          distanceByRoadClass := createEmptyRoadClassRecord
          travelTime := 0
          travelTimeByRoadClass := createEmptyRoadClassRecord }).distance =
      .num (((dijkstraPathEdges wGraph1 "a" "a" none).map (fun e => e.weight)).sum) := by
  have h := dijkstra_distance_is_true_sum wGraph1 "a" "a" none
    { path := [⟨49, -125⟩], distance := .num 0, nodeIds := ["a"]
      distanceByRoadClass := createEmptyRoadClassRecord
      travelTime := 0
      travelTimeByRoadClass := createEmptyRoadClassRecord }
    (by rfl) (by rfl)
    (dijkstra_self_result wGraph1 "a" none wNode1 (by rfl))
  rw [dijkstra_self_result wGraph1 "a" none wNode1 (by rfl)]
  simpa using h

/-- `Y` extends `X`: the visit order of `X` is a prefix of that of `Y`, and
all three maps agree on the nodes `X` has already visited (relaxation only
ever writes unvisited targets, so continuing the loop freezes the visited
region). -/
structure StExt (X Y : DState) : Prop where
  vis : ∃ zs, Y.visited = X.visited ++ zs
  dist : ∀ v ∈ X.visited, Y.distances.get .undef v = X.distances.get .undef v
  act : ∀ v ∈ X.visited,
    Y.actualDistances.get .undef v = X.actualDistances.get .undef v
  prev : ∀ v ∈ X.visited, Y.previous.get none v = X.previous.get none v

theorem reconstruct_ext {g : RoutingGraph} {s : String} {X Y : DState}
    (hInv : DInv g s X) (hext : StExt X Y) :
    ∀ (n : ℕ) (v : String), v ∈ X.visited → visitIdx X.visited v < n →
      ∀ f1 f2, visitIdx X.visited v < f1 → visitIdx X.visited v < f2 →
        reconstruct X.previous f1 v = reconstruct Y.previous f2 v := by
  intro n
  induction n with
  | zero => intro v _ h; omega
  | succ n ih =>
    intro v hv hn f1 f2 hf1 hf2
    obtain ⟨g1, rfl⟩ : ∃ g1, f1 = g1 + 1 := ⟨f1 - 1, by omega⟩
    obtain ⟨g2, rfl⟩ : ∃ g2, f2 = g2 + 1 := ⟨f2 - 1, by omega⟩
    rw [reconstruct, reconstruct, hext.prev v hv]
    cases hp : X.previous.get none v with
    | none => rfl
    | some ue =>
      obtain ⟨u, e⟩ := ue
      have hu : u ∈ X.visited := hInv.prevVisited v u e hp
      have hord : visitIdx X.visited u < visitIdx X.visited v :=
        hInv.prevOrder v u e hp hv
      dsimp only
      rw [ih u hu (by omega) g1 g2 (by omega) (by omega)]

theorem extract_ext {g : RoutingGraph} {s t : String} {X Y : DState}
    (hInv : DInv g s X) (hext : StExt X Y) (ht : t ∈ X.visited) :
    extract g X t = extract g Y t := by
  have hlen : X.visited.length ≤ Y.visited.length := by
    obtain ⟨zs, hzs⟩ := hext.vis
    rw [hzs, List.length_append]
    omega
  have hidx := visitIdx_lt_length ht
  have hreq : reconstruct X.previous (X.visited.length + 1) t =
      reconstruct Y.previous (Y.visited.length + 1) t :=
    reconstruct_ext hInv hext (visitIdx X.visited t + 1) t ht
      (Nat.lt_succ_self _) _ _ (by omega) (by omega)
  unfold extract
  rw [hext.dist t ht, hext.act t ht, hreq]

theorem StExt_trans {X Y Z : DState} (h1 : StExt X Y) (h2 : StExt Y Z) :
    StExt X Z := by
  obtain ⟨zs1, hz1⟩ := h1.vis
  obtain ⟨zs2, hz2⟩ := h2.vis
  have hmem : ∀ v ∈ X.visited, v ∈ Y.visited := by
    intro v hv
    rw [hz1]
    exact List.mem_append_left _ hv
  exact
    { vis := ⟨zs1 ++ zs2, by rw [hz2, hz1, List.append_assoc]⟩
      dist := fun v hv => (h2.dist v (hmem v hv)).trans (h1.dist v hv)
      act := fun v hv => (h2.act v (hmem v hv)).trans (h1.act v hv)
      prev := fun v hv => (h2.prev v (hmem v hv)).trans (h1.prev v hv) }

/-- Visiting a fresh node and relaxing its edges extends the state. -/
theorem StExt_visit (g : RoutingGraph) (prefs : Option RoadPreferences)
    (c : String) (X : DState) :
    StExt X (visitNode g prefs c { X with visited := X.visited ++ [c] }) := by
  refine ⟨⟨[c], ?_⟩, ?_, ?_, ?_⟩
  · rw [visitNode_visited]
  · intro v hv
    exact (visitNode_frozen g prefs c _ v (List.mem_append_left _ hv)).1
  · intro v hv
    exact (visitNode_frozen g prefs c _ v (List.mem_append_left _ hv)).2.1
  · intro v hv
    exact (visitNode_frozen g prefs c _ v (List.mem_append_left _ hv)).2.2

/-- Relaxing the freshly visited target's edges extends the state without
growing the visit order (used at the break point: the early loop stops
before relaxing the target, the full loop relaxes it). -/
theorem StExt_visitNode_self (g : RoutingGraph) (prefs : Option RoadPreferences)
    (c : String) (X : DState) : StExt X (visitNode g prefs c X) := by
  refine ⟨⟨[], ?_⟩, ?_, ?_, ?_⟩
  · rw [visitNode_visited, List.append_nil]
  · intro v hv
    exact (visitNode_frozen g prefs c _ v hv).1
  · intro v hv
    exact (visitNode_frozen g prefs c _ v hv).2.1
  · intro v hv
    exact (visitNode_frozen g prefs c _ v hv).2.2

/-- Once the target is visited, running the queue to exhaustion does not
change the assembled result: relaxation never rewrites the visited region,
and the whole reconstruction chain lives inside it. -/
theorem loopN_extract {g : RoutingGraph} {s t : String}
    {prefs : Option RoadPreferences} :
    ∀ (fuel : ℕ) (X : DState), DInv g s X → t ∈ X.visited →
      extract g (loopN g prefs fuel X) t = extract g X t := by
  intro fuel
  induction fuel with
  | zero => intro X _ _; rfl
  | succ n ih =>
    intro X h ht
    rw [loopN]
    cases hq : X.queue with
    | nil => rfl
    | cons kv rest =>
      obtain ⟨currentId, pr⟩ := kv
      dsimp only
      by_cases hvis : ((X.visited).contains currentId : Bool)
      · rw [if_pos hvis]
        exact ih _ (DInv_queue h rest) ht
      · rw [if_neg hvis]
        have hnm : currentId ∉ X.visited := fun hm => hvis (List.elem_iff.mpr hm)
        have h2 : DInv g s { X with queue := rest, visited := X.visited ++ [currentId] } :=
          DInv_visit (DInv_queue h rest) currentId hnm
        have h3 := @visitNode_inv g s prefs currentId
          { X with queue := rest, visited := X.visited ++ [currentId] } h2
          (List.mem_append_right _ (List.mem_singleton_self currentId))
        have ht3 : t ∈ (visitNode g prefs currentId
            { X with queue := rest, visited := X.visited ++ [currentId] }).visited := by
          rw [visitNode_visited]
          exact List.mem_append_left _ ht
        rw [ih _ h3 ht3]
        have hext : StExt X (visitNode g prefs currentId
            { X with queue := rest, visited := X.visited ++ [currentId] }) := by
          have h4 := StExt_visit g prefs currentId { X with queue := rest }
          exact ⟨h4.vis, h4.dist, h4.act, h4.prev⟩
        exact (extract_ext h hext ht).symm

/-- The early-exit loop and the run-to-exhaustion loop assemble the same
result from any invariant-satisfying state. -/
theorem loopE_loopN_extract {g : RoutingGraph} {s : String}
    {prefs : Option RoadPreferences} (t : String) :
    ∀ (fuel : ℕ) (X : DState), DInv g s X →
      extract g (loopE g prefs t fuel X) t = extract g (loopN g prefs fuel X) t := by
  intro fuel
  induction fuel with
  | zero => intro X _; rfl
  | succ n ih =>
    intro X h
    rw [loopE, loopN]
    cases hq : X.queue with
    | nil => rfl
    | cons kv rest =>
      obtain ⟨currentId, pr⟩ := kv
      dsimp only
      by_cases hvis : ((X.visited).contains currentId : Bool)
      · rw [if_pos hvis, if_pos hvis]
        exact ih _ (DInv_queue h rest)
      · rw [if_neg hvis, if_neg hvis]
        have hnm : currentId ∉ X.visited := fun hm => hvis (List.elem_iff.mpr hm)
        have h2 : DInv g s { X with queue := rest, visited := X.visited ++ [currentId] } :=
          DInv_visit (DInv_queue h rest) currentId hnm
        by_cases hend : currentId = t
        · rw [if_pos hend]
          subst hend
          have hmem : currentId ∈
              ({ X with queue := rest, visited := X.visited ++ [currentId] } : DState).visited :=
            List.mem_append_right _ (List.mem_singleton_self currentId)
          have h3 := @visitNode_inv g s prefs currentId
            { X with queue := rest, visited := X.visited ++ [currentId] } h2 hmem
          have hmem3 : currentId ∈ (visitNode g prefs currentId
              { X with queue := rest, visited := X.visited ++ [currentId] }).visited := by
            rw [visitNode_visited]
            exact hmem
          rw [loopN_extract n _ h3 hmem3]
          exact extract_ext h2 (StExt_visitNode_self g prefs currentId _) hmem
        · rw [if_neg hend]
          exact ih _ (visitNode_inv h2
            (List.mem_append_right _ (List.mem_singleton_self currentId)))

/-- C4: the early termination of the solver — breaking as soon as the target
is popped — yields exactly the same result (distance, path, and every other
field) as running the search until the queue empties, on every graph whose
preference-weighted edge weights are non-negative. -/
theorem dijkstra_early_exit_equiv (g : RoutingGraph) (s t : String)
    (prefs : Option RoadPreferences)
    (_hW : ∀ kv ∈ g.nodes, ∀ e ∈ kv.2.edges,
      0 ≤ e.weight * getPreferenceWeight e prefs) :
    dijkstra g s t prefs = dijkstraNoEarly g s t prefs := by
  unfold dijkstra dijkstraNoEarly dijkstraRun
  exact loopE_loopN_extract t (fuelBound g) (initState g s) (initState_inv g s)

/-- Witness for `dijkstra_early_exit_equiv` on the one-node graph (whose
edge set is empty, hence trivially non-negative after weighting). -/
theorem dijkstra_early_exit_equiv_witness :
    dijkstra wGraph1 "a" "a" none = dijkstraNoEarly wGraph1 "a" "a" none := by
  refine dijkstra_early_exit_equiv wGraph1 "a" "a" none ?_
  intro kv hkv e he
  rw [wGraph1, List.mem_singleton] at hkv
  subst hkv
  simp [wNode1] at he

/-- The straight-line fallback leg the composer appends when the solver
reports no path for a consecutive pair (graph-independent; bucketed entirely
as `local`). -/
def straightLineLeg (hdist : DistFn) (i : ℕ) (startNode endNode : GraphNode) :
    RouteLeg :=
  let straightLineDistance := hdist startNode.position endNode.position
  { fromWaypointIndex := i
    toWaypointIndex := i + 1
    distance := .num straightLineDistance
    distanceByRoadClass :=
      { createEmptyRoadClassRecord with local_ := straightLineDistance }
    travelTime := calculateTravelTime straightLineDistance .local_
    travelTimeByRoadClass :=
      { createEmptyRoadClassRecord with
          local_ := calculateTravelTime straightLineDistance .local_ } }

/-- The leg the composer produces for one waypoint pair: a function of that
pair's own solver result alone. -/
def legOf (hdist : DistFn) (g : RoutingGraph) (prefs : Option RoadPreferences)
    (step : ℕ × GraphNode × GraphNode) : RouteLeg :=
  match dijkstra g step.2.1.id step.2.2.id prefs with
  | none => straightLineLeg hdist step.1 step.2.1 step.2.2
  | some segment =>
    { fromWaypointIndex := step.1
      toWaypointIndex := step.1 + 1
      distance := segment.distance
      distanceByRoadClass := segment.distanceByRoadClass
      travelTime := segment.travelTime
      travelTimeByRoadClass := segment.travelTimeByRoadClass }

/-- The leg-distance aggregate of the aggregation identity (JavaScript `+`
folded over the legs in order, starting from `0`). -/
def legsDistanceSum (legs : List RouteLeg) : JNum :=
  legs.foldl (fun a l => a.add l.distance) (.num 0)

theorem RoadClassRecord.get_addAll (r t : RoadClassRecord) (c : RoadClass) :
    (r.addAll t).get c = r.get c + t.get c := by
  cases c <;> simp [RoadClassRecord.addAll, RoadClassRecord.get]

theorem RoadClassRecord.get_bump (r : RoadClassRecord) (c c2 : RoadClass) (q : ℚ) :
    (r.bump c q).get c2 = r.get c2 + (if c2 = c then q else 0) := by
  cases c <;> cases c2 <;> simp [RoadClassRecord.bump, RoadClassRecord.get]

theorem RoadClassRecord.get_empty (c : RoadClass) :
    createEmptyRoadClassRecord.get c = 0 := by
  cases c <;> simp [RoadClassRecord.get, createEmptyRoadClassRecord]

theorem RoadClassRecord.get_emptyLocal (q : ℚ) (c : RoadClass) :
    ({ createEmptyRoadClassRecord with local_ := q } : RoadClassRecord).get c =
      if c = .local_ then q else 0 := by
  cases c <;> simp [RoadClassRecord.get, createEmptyRoadClassRecord]

theorem RoadClassRecord.total_addAll (r t : RoadClassRecord) :
    (r.addAll t).total = r.total + t.total := by
  simp [RoadClassRecord.addAll, RoadClassRecord.total]
  ring

theorem RoadClassRecord.total_bump (r : RoadClassRecord) (c : RoadClass) (q : ℚ) :
    (r.bump c q).total = r.total + q := by
  cases c <;> simp [RoadClassRecord.bump, RoadClassRecord.total] <;> ring

theorem RoadClassRecord.total_empty : createEmptyRoadClassRecord.total = 0 := by
  simp [RoadClassRecord.total, createEmptyRoadClassRecord]

theorem RoadClassRecord.total_emptyLocal (q : ℚ) :
    ({ createEmptyRoadClassRecord with local_ := q } : RoadClassRecord).total = q := by
  simp [RoadClassRecord.total, createEmptyRoadClassRecord]

/-- Every result the assembly step returns has its travel time equal to the
total of its travel-time buckets (the source computes it that way). -/
theorem extract_travelTime {g : RoutingGraph} {S : DState} {t : String}
    {res : RouteResult} (h : extract g S t = some res) :
    res.travelTime = res.travelTimeByRoadClass.total := by
  rw [extract] at h
  split_ifs at h
  obtain rfl : _ = res := Option.some.injEq .. ▸ h
  rfl

theorem dijkstra_travelTime {g : RoutingGraph} {s t : String}
    {prefs : Option RoadPreferences} {res : RouteResult}
    (h : dijkstra g s t prefs = some res) :
    res.travelTime = res.travelTimeByRoadClass.total :=
  extract_travelTime h

theorem legOf_travelTime (hdist : DistFn) (g : RoutingGraph)
    (prefs : Option RoadPreferences) (step : ℕ × GraphNode × GraphNode) :
    (legOf hdist g prefs step).travelTime =
      (legOf hdist g prefs step).travelTimeByRoadClass.total := by
  unfold legOf
  cases hd : dijkstra g step.2.1.id step.2.2.id prefs with
  | none =>
    simp [straightLineLeg, RoadClassRecord.total_emptyLocal]
  | some segment =>
    simpa using dijkstra_travelTime hd

theorem composeStep_legs (hdist : DistFn) (g : RoutingGraph)
    (prefs : Option RoadPreferences) (acc : ComposeAcc)
    (step : ℕ × GraphNode × GraphNode) :
    (composeStep hdist g prefs acc step).legs =
      acc.legs ++ [legOf hdist g prefs step] := by
  unfold composeStep legOf
  dsimp only
  cases dijkstra g step.2.1.id step.2.2.id prefs <;> rfl

theorem composeStep_totalDistance (hdist : DistFn) (g : RoutingGraph)
    (prefs : Option RoadPreferences) (acc : ComposeAcc)
    (step : ℕ × GraphNode × GraphNode) :
    (composeStep hdist g prefs acc step).totalDistance =
      acc.totalDistance.add (legOf hdist g prefs step).distance := by
  unfold composeStep legOf
  dsimp only
  cases dijkstra g step.2.1.id step.2.2.id prefs <;> rfl

theorem composeStep_totD_get (hdist : DistFn) (g : RoutingGraph)
    (prefs : Option RoadPreferences) (acc : ComposeAcc)
    (step : ℕ × GraphNode × GraphNode) (c : RoadClass) :
    (composeStep hdist g prefs acc step).totalDistanceByRoadClass.get c =
      acc.totalDistanceByRoadClass.get c +
        (legOf hdist g prefs step).distanceByRoadClass.get c := by
  unfold composeStep legOf
  dsimp only
  cases dijkstra g step.2.1.id step.2.2.id prefs with
  | none =>
    simp [straightLineLeg, RoadClassRecord.get_bump, RoadClassRecord.get_emptyLocal]
  | some segment =>
    simp [RoadClassRecord.get_addAll]

theorem composeStep_totT_get (hdist : DistFn) (g : RoutingGraph)
    (prefs : Option RoadPreferences) (acc : ComposeAcc)
    (step : ℕ × GraphNode × GraphNode) (c : RoadClass) :
    (composeStep hdist g prefs acc step).totalTravelTimeByRoadClass.get c =
      acc.totalTravelTimeByRoadClass.get c +
        (legOf hdist g prefs step).travelTimeByRoadClass.get c := by
  unfold composeStep legOf
  dsimp only
  cases dijkstra g step.2.1.id step.2.2.id prefs with
  | none =>
    simp [straightLineLeg, RoadClassRecord.get_bump, RoadClassRecord.get_emptyLocal]
  | some segment =>
    simp [RoadClassRecord.get_addAll]

theorem composeStep_totT_total (hdist : DistFn) (g : RoutingGraph)
    (prefs : Option RoadPreferences) (acc : ComposeAcc)
    (step : ℕ × GraphNode × GraphNode) :
    (composeStep hdist g prefs acc step).totalTravelTimeByRoadClass.total =
      acc.totalTravelTimeByRoadClass.total + (legOf hdist g prefs step).travelTime := by
  unfold composeStep legOf
  dsimp only
  cases hd : dijkstra g step.2.1.id step.2.2.id prefs with
  | none =>
    simp [straightLineLeg, RoadClassRecord.total_bump]
  | some segment =>
    have ht := dijkstra_travelTime hd
    simp [RoadClassRecord.total_addAll, ht]

/-- Generic transport of a per-step accumulator law through the composer's
fold. -/
theorem foldl_compose_generic {β : Type} (hdist : DistFn) (g : RoutingGraph)
    (prefs : Option RoadPreferences) (f : ComposeAcc → β) (op : β → RouteLeg → β)
    (hstep : ∀ acc x, f (composeStep hdist g prefs acc x) =
      op (f acc) (legOf hdist g prefs x)) :
    ∀ (ps : List (ℕ × GraphNode × GraphNode)) (acc : ComposeAcc),
      f (ps.foldl (composeStep hdist g prefs) acc) =
        (ps.map (legOf hdist g prefs)).foldl op (f acc) := by
  intro ps
  induction ps with
  | nil => intro acc; rfl
  | cons x rest ih =>
    intro acc
    rw [List.foldl_cons, List.map_cons, List.foldl_cons, ih, hstep]

theorem foldl_append_singleton {α : Type} :
    ∀ (xs : List α) (l0 : List α),
      xs.foldl (fun a x => a ++ [x]) l0 = l0 ++ xs := by
  intro xs
  induction xs with
  | nil => intro l0; simp
  | cons x rest ih =>
    intro l0
    rw [List.foldl_cons, ih]
    simp

theorem foldl_add_map {α : Type} (f : α → ℚ) :
    ∀ (xs : List α) (b : ℚ),
      xs.foldl (fun a x => a + f x) b = b + (xs.map f).sum := by
  intro xs
  induction xs with
  | nil => intro b; simp
  | cons x rest ih =>
    intro b
    rw [List.foldl_cons, ih]
    simp
    ring

/-- Under a present graph and locatable waypoints, `calculateRoute` is the
per-pair fold: its result fields are exactly the fold accumulator's. -/
theorem calculateRoute_fold {hdist : DistFn} {g : RoutingGraph}
    {prefs : Option RoadPreferences} {waypoints : List LatLng}
    {res : ExtendedRouteResult}
    (hall : ∀ wp ∈ waypoints, (findNearestNode hdist g wp).isSome)
    (h : calculateRoute hdist (some g) waypoints prefs = some res) :
    res =
      (let nodes := (waypoints.map (findNearestNode hdist g)).reduceOption
       let acc := (nodePairs nodes).foldl (composeStep hdist g prefs)
         { fullPath := [], allNodeIds := [], legs := [], totalDistance := .num 0
           totalDistanceByRoadClass := createEmptyRoadClassRecord
           totalTravelTimeByRoadClass := createEmptyRoadClassRecord }
       { path := acc.fullPath
         distance := acc.totalDistance
         nodeIds := acc.allNodeIds
         distanceByRoadClass := acc.totalDistanceByRoadClass
         travelTime := acc.totalTravelTimeByRoadClass.total
         travelTimeByRoadClass := acc.totalTravelTimeByRoadClass
         legs := acc.legs }) := by
  rw [calculateRoute] at h
  split_ifs at h with hlen
  have hany : (waypoints.map (findNearestNode hdist g)).any (·.isNone) = false := by
    rw [List.any_eq_false]
    intro x hx
    obtain ⟨wp, hwp, rfl⟩ := List.mem_map.mp hx
    have hws := hall wp hwp
    intro hc
    rw [Option.isNone_iff_eq_none] at hc
    rw [hc] at hws
    simp at hws
  dsimp only at h
  rw [hany] at h
  simp only [Bool.false_eq_true, if_false] at h
  exact (Option.some.injEq .. ▸ h).symm

/-- C5 (amended): for every result produced by the per-pair composition path
of `calculateRoute` (graph available, every waypoint locatable), the
route-level `distance`, `travelTime`, and each of the twelve road-class
buckets equal the corresponding sums over the legs.  (The whole-route
fallback results, which the original claim also covered, violate the
identity: they carry an empty `legs` array next to a non-zero distance —
see `aggregation_identity_fallback_counterexample`.) -/
theorem aggregation_identity (hdist : DistFn) (g : RoutingGraph)
    (prefs : Option RoadPreferences) (waypoints : List LatLng)
    (res : ExtendedRouteResult)
    (hall : ∀ wp ∈ waypoints, (findNearestNode hdist g wp).isSome)
    (h : calculateRoute hdist (some g) waypoints prefs = some res) :
    res.distance = legsDistanceSum res.legs ∧
    res.travelTime = (res.legs.map (fun l => l.travelTime)).sum ∧
    (∀ c, res.distanceByRoadClass.get c =
      (res.legs.map (fun l => l.distanceByRoadClass.get c)).sum) ∧
    (∀ c, res.travelTimeByRoadClass.get c =
      (res.legs.map (fun l => l.travelTimeByRoadClass.get c)).sum) := by
  have hres := calculateRoute_fold hall h
  subst hres
  dsimp only
  set ps := nodePairs ((waypoints.map (findNearestNode hdist g)).reduceOption) with hps
  set acc0 : ComposeAcc :=
    { fullPath := [], allNodeIds := [], legs := [], totalDistance := .num 0
      totalDistanceByRoadClass := createEmptyRoadClassRecord
      totalTravelTimeByRoadClass := createEmptyRoadClassRecord } with hacc0
  have hlegs : (ps.foldl (composeStep hdist g prefs) acc0).legs =
      ps.map (legOf hdist g prefs) := by
    rw [foldl_compose_generic hdist g prefs (fun a => a.legs)
      (fun l leg => l ++ [leg]) (composeStep_legs hdist g prefs) ps acc0]
    rw [foldl_append_singleton]
    rfl
  refine ⟨?_, ?_, ?_, ?_⟩
  · rw [hlegs, legsDistanceSum]
    exact foldl_compose_generic hdist g prefs (fun a => a.totalDistance)
      (fun a leg => a.add leg.distance) (composeStep_totalDistance hdist g prefs)
      ps acc0
  · rw [hlegs]
    rw [foldl_compose_generic hdist g prefs
      (fun a => a.totalTravelTimeByRoadClass.total)
      (fun a leg => a + leg.travelTime) (composeStep_totT_total hdist g prefs)
      ps acc0]
    have : acc0.totalTravelTimeByRoadClass.total = 0 := RoadClassRecord.total_empty
    rw [this, foldl_add_map, zero_add]
  · intro c
    rw [hlegs]
    rw [foldl_compose_generic hdist g prefs
      (fun a => a.totalDistanceByRoadClass.get c)
      (fun a leg => a + leg.distanceByRoadClass.get c)
      (fun acc x => composeStep_totD_get hdist g prefs acc x c) ps acc0]
    have : acc0.totalDistanceByRoadClass.get c = 0 := RoadClassRecord.get_empty c
    rw [this, foldl_add_map, zero_add]
  · intro c
    rw [hlegs]
    rw [foldl_compose_generic hdist g prefs
      (fun a => a.totalTravelTimeByRoadClass.get c)
      (fun a leg => a + leg.travelTimeByRoadClass.get c)
      (fun acc x => composeStep_totT_get hdist g prefs acc x c) ps acc0]
    have : acc0.totalTravelTimeByRoadClass.get c = 0 := RoadClassRecord.get_empty c
    rw [this, foldl_add_map, zero_add]

/-- Counterexample to C5 as stated: the whole-route fallback result (graph
unavailable) has an empty `legs` array but a non-zero aggregate distance, so
the claimed summation identity fails on it. -/
theorem aggregation_identity_fallback_counterexample :
    calculateRoute flatDist none [⟨0, 0⟩, ⟨0, 1⟩] none =
      some (wholeRouteFallback flatDist [⟨0, 0⟩, ⟨0, 1⟩]) ∧
    (wholeRouteFallback flatDist [⟨0, 0⟩, ⟨0, 1⟩]).legs = [] ∧
    (wholeRouteFallback flatDist [⟨0, 0⟩, ⟨0, 1⟩]).distance ≠
      legsDistanceSum (wholeRouteFallback flatDist [⟨0, 0⟩, ⟨0, 1⟩]).legs := by
  refine ⟨by norm_num [calculateRoute], rfl, ?_⟩
  norm_num [wholeRouteFallback, calculateStraightLineDistance, flatDist,
    legsDistanceSum, List.foldl]

/-- The graph-routed leg of the witness route below (a self-pair leg on the
one-node graph). -/
def wLeg0 : RouteLeg :=
  { fromWaypointIndex := 0, toWaypointIndex := 1, distance := .num 0
    distanceByRoadClass := createEmptyRoadClassRecord
    travelTime := 0
    travelTimeByRoadClass := createEmptyRoadClassRecord }

/-- The witness route on the one-node graph. -/
def wRoute1 : ExtendedRouteResult :=
  { path := [⟨49, -125⟩], distance := .num 0, nodeIds := ["a"]
    distanceByRoadClass := createEmptyRoadClassRecord
    travelTime := 0
    travelTimeByRoadClass := createEmptyRoadClassRecord
    legs := [wLeg0] }

theorem calculateRoute_wGraph1_eval :
    calculateRoute flatDist (some wGraph1) [⟨0, 0⟩, ⟨0, 1⟩] none = some wRoute1 := by
  have hD : dijkstra
      { nodes := [("a", { id := "a", position := ⟨49, -125⟩, edges := [] })] }
      "a" "a" none = some
      { path := [⟨49, -125⟩], distance := .num 0, nodeIds := ["a"]
        distanceByRoadClass := createEmptyRoadClassRecord
        travelTime := 0
        travelTimeByRoadClass := createEmptyRoadClassRecord } := by
    have h0 := dijkstra_self_result wGraph1 "a" none wNode1 rfl
    simpa [wGraph1, wNode1] using h0
  simp only [calculateRoute, wGraph1, wNode1, wRoute1, wLeg0, findNearestNode,
    nodePairs, composeStep, List.map, List.foldl, List.reduceOption, List.zip,
    List.zipWith, List.enum, List.enumFrom, List.any]
  norm_num [hD, positionsEqual, JNum.add, RoadClassRecord.addAll,
    createEmptyRoadClassRecord, RoadClassRecord.total, wNode1]

/-- Witness for `aggregation_identity` on a concrete one-node route. -/
theorem aggregation_identity_witness :
    calculateRoute flatDist (some wGraph1) [⟨0, 0⟩, ⟨0, 1⟩] none = some wRoute1 ∧
    wRoute1.distance = legsDistanceSum wRoute1.legs ∧
    wRoute1.travelTime = (wRoute1.legs.map (fun l => l.travelTime)).sum := by
  refine ⟨calculateRoute_wGraph1_eval, ?_, ?_⟩
  · exact (aggregation_identity flatDist wGraph1 none [⟨0, 0⟩, ⟨0, 1⟩] wRoute1
      (fun wp _ => rfl) calculateRoute_wGraph1_eval).1
  · exact (aggregation_identity flatDist wGraph1 none [⟨0, 0⟩, ⟨0, 1⟩] wRoute1
      (fun wp _ => rfl) calculateRoute_wGraph1_eval).2.1

/-- C6: whenever the solver finds no path for the `i`-th consecutive
waypoint-node pair, the composer's `i`-th leg is the two-point straight-line
leg — distance equal to the point-to-point distance between the two node
positions, entirely bucketed as `local` — and every leg (including all the
others) is a function of its own pair's solver result alone, so no other leg
is affected. -/
theorem no_path_straight_line_leg (hdist : DistFn) (g : RoutingGraph)
    (prefs : Option RoadPreferences) (waypoints : List LatLng)
    (res : ExtendedRouteResult) (i : ℕ) (step : ℕ × GraphNode × GraphNode)
    (hall : ∀ wp ∈ waypoints, (findNearestNode hdist g wp).isSome)
    (h : calculateRoute hdist (some g) waypoints prefs = some res)
    (hstep : (nodePairs
      ((waypoints.map (findNearestNode hdist g)).reduceOption)).get? i = some step)
    (hnone : dijkstra g step.2.1.id step.2.2.id prefs = none) :
    res.legs.get? i = some
      { fromWaypointIndex := step.1, toWaypointIndex := step.1 + 1
        distance := .num (hdist step.2.1.position step.2.2.position)
        distanceByRoadClass := { createEmptyRoadClassRecord with
          local_ := hdist step.2.1.position step.2.2.position }
        travelTime :=
          calculateTravelTime (hdist step.2.1.position step.2.2.position) .local_
        travelTimeByRoadClass := { createEmptyRoadClassRecord with
          local_ := calculateTravelTime
            (hdist step.2.1.position step.2.2.position) .local_ } } ∧
    (∀ j stepj,
      (nodePairs
        ((waypoints.map (findNearestNode hdist g)).reduceOption)).get? j =
          some stepj →
      res.legs.get? j = some (legOf hdist g prefs stepj)) := by
  have hres := calculateRoute_fold hall h
  subst hres
  dsimp only
  set ps := nodePairs ((waypoints.map (findNearestNode hdist g)).reduceOption)
    with hps
  set acc0 : ComposeAcc :=
    { fullPath := [], allNodeIds := [], legs := [], totalDistance := .num 0
      totalDistanceByRoadClass := createEmptyRoadClassRecord
      totalTravelTimeByRoadClass := createEmptyRoadClassRecord } with hacc0
  have hlegs : (ps.foldl (composeStep hdist g prefs) acc0).legs =
      ps.map (legOf hdist g prefs) := by
    rw [foldl_compose_generic hdist g prefs (fun a => a.legs)
      (fun l leg => l ++ [leg]) (composeStep_legs hdist g prefs) ps acc0]
    rw [foldl_append_singleton]
    rfl
  have hgen : ∀ j stepj, ps.get? j = some stepj →
      (ps.foldl (composeStep hdist g prefs) acc0).legs.get? j =
        some (legOf hdist g prefs stepj) := by
    intro j stepj hj
    rw [hlegs, List.get?_map, hj]
    rfl
  refine ⟨?_, hgen⟩
  have h1 := hgen i step hstep
  rw [h1]
  unfold legOf
  rw [hnone]
  rfl

/-- Two disconnected witness nodes. -/
def wNodeA : GraphNode := { id := "a", position := ⟨0, 0⟩, edges := [] }

/-- Second disconnected witness node. -/
def wNodeB : GraphNode := { id := "b", position := ⟨0, 1⟩, edges := [] }

/-- Witness graph with two nodes and no edges (disconnected). -/
def wGraph2 : RoutingGraph := { nodes := [("a", wNodeA), ("b", wNodeB)] }

theorem dijkstra_wGraph2_none : dijkstra wGraph2 "a" "b" none = none := by
  simp only [dijkstra, dijkstraRun, wGraph2, wNodeA, wNodeB, fuelBound, totalOutDeg,
    initState, List.map, List.foldl, loopE, visitNode, RoutingGraph.find?,
    List.find?, extract]
  simp [DMap.get, List.find?, JNum.isInf]

theorem findNearest_wGraph2_a :
    findNearestNode flatDist wGraph2 ⟨0, 0⟩ = some wNodeA := by
  norm_num [findNearestNode, wGraph2, wNodeA, wNodeB, flatDist, List.foldl]

theorem findNearest_wGraph2_b :
    findNearestNode flatDist wGraph2 ⟨0, 1⟩ = some wNodeB := by
  norm_num [findNearestNode, wGraph2, wNodeA, wNodeB, flatDist, List.foldl]

theorem calculateRoute_wGraph2_eval :
    calculateRoute flatDist (some wGraph2) [⟨0, 0⟩, ⟨0, 1⟩] none = some
      { path := [⟨0, 0⟩, ⟨0, 1⟩], distance := .num 1, nodeIds := []
        distanceByRoadClass := { createEmptyRoadClassRecord with local_ := 1 }
        travelTime := 9/125
        travelTimeByRoadClass := { createEmptyRoadClassRecord with local_ := 9/125 }
        legs := [{ fromWaypointIndex := 0, toWaypointIndex := 1
                   distance := .num 1
                   distanceByRoadClass :=
                     { createEmptyRoadClassRecord with local_ := 1 }
                   travelTime := 9/125
                   travelTimeByRoadClass :=
                     { createEmptyRoadClassRecord with local_ := 9/125 } }] } := by
  simp only [calculateRoute, findNearest_wGraph2_a, findNearest_wGraph2_b,
    List.map, List.reduceOption, List.any, nodePairs, List.zip, List.zipWith,
    List.enum, List.enumFrom, List.foldl, composeStep, dijkstra_wGraph2_none]
  have hD2 : dijkstra wGraph2 wNodeA.id wNodeB.id none = none := by
    have h0 := dijkstra_wGraph2_none
    simpa [wNodeA, wNodeB] using h0
  rw [hD2]
  norm_num [wNodeA, wNodeB, flatDist, positionsEqual, JNum.add,
    RoadClassRecord.bump, createEmptyRoadClassRecord, RoadClassRecord.total,
    calculateTravelTime, ROAD_SPEEDS]

/-- Witness for `no_path_straight_line_leg` on the two-node disconnected
graph: the single leg is the straight-line local leg of length `1`. -/
theorem no_path_straight_line_leg_witness :
    calculateRoute flatDist (some wGraph2) [⟨0, 0⟩, ⟨0, 1⟩] none = some
      { path := [⟨0, 0⟩, ⟨0, 1⟩], distance := .num 1, nodeIds := []
        distanceByRoadClass := { createEmptyRoadClassRecord with local_ := 1 }
        travelTime := 9/125
        travelTimeByRoadClass := { createEmptyRoadClassRecord with local_ := 9/125 }
        legs := [{ fromWaypointIndex := 0, toWaypointIndex := 1
                   distance := .num 1
                   distanceByRoadClass :=
                     { createEmptyRoadClassRecord with local_ := 1 }
                   travelTime := 9/125
                   travelTimeByRoadClass :=
                     { createEmptyRoadClassRecord with local_ := 9/125 } }] } ∧
    (Option.getD (calculateRoute flatDist (some wGraph2) [⟨0, 0⟩, ⟨0, 1⟩] none)
        (wholeRouteFallback flatDist [])).legs.get? 0 = some
      { fromWaypointIndex := 0, toWaypointIndex := 1
        distance := .num (flatDist wNodeA.position wNodeB.position)
        distanceByRoadClass := { createEmptyRoadClassRecord with
          local_ := flatDist wNodeA.position wNodeB.position }
        travelTime :=
          calculateTravelTime (flatDist wNodeA.position wNodeB.position) .local_
        travelTimeByRoadClass := { createEmptyRoadClassRecord with
          local_ := calculateTravelTime
            (flatDist wNodeA.position wNodeB.position) .local_ } } := by
  refine ⟨calculateRoute_wGraph2_eval, ?_⟩
  have hstep : (nodePairs
      (([⟨0, 0⟩, (⟨0, 1⟩ : LatLng)].map (findNearestNode flatDist wGraph2)).reduceOption)).get? 0 =
      some (0, wNodeA, wNodeB) := by
    simp [findNearest_wGraph2_a, findNearest_wGraph2_b, nodePairs,
      List.reduceOption]
  have h := (no_path_straight_line_leg flatDist wGraph2 none [⟨0, 0⟩, ⟨0, 1⟩] _ 0
    (0, wNodeA, wNodeB)
    (by intro wp hwp
        rcases List.mem_cons.mp hwp with h1 | h1
        · subst h1; rw [findNearest_wGraph2_a]; rfl
        · rw [List.mem_singleton] at h1; subst h1; rw [findNearest_wGraph2_b]; rfl)
    calculateRoute_wGraph2_eval hstep (by simpa [wNodeA, wNodeB] using dijkstra_wGraph2_none)).1
  rw [calculateRoute_wGraph2_eval]
  simpa using h

/-- C1 (failing-input evaluation): what the builder actually emits for a
single two-vertex polyline carrying road class `highway` whose endpoint keys
map to different nodes.  Exactly two edges appear, one per direction, each
with the summed length as weight and the shared segment id — but the
builder's edge type has no road-class field at all (its local `GraphEdge`
interface is `targetNodeId`/`roadSegmentId`/`weight` only), so the input's
`highway` classification is dropped on the floor, contradicting the claim,
spec §4.1 step 4, the graph-file schema of spec §6, and the (required)
`roadClass` field of `GraphEdge` in `src/types/index.ts`. -/
theorem buildGraph_drops_roadClass :
    Builder.buildGraph flatDist
      [{ geometry := .lineString [⟨2, 3⟩, ⟨5, 7⟩], roadClass := some .highway }] =
      { nodes :=
          [("n0", { id := "n0", position := ⟨3, 2⟩
                    edges := [{ targetNodeId := "n1", roadSegmentId := "s0"
                                weight := 7 }] }),
           ("n1", { id := "n1", position := ⟨7, 5⟩
                    edges := [{ targetNodeId := "n0", roadSegmentId := "s0"
                                weight := 7 }] })]
        nodeCount := 2
        edgeCount := 2 } := by
  have hs0 : "n" ++ toString (0 : ℕ) = "n0" := rfl
  have hs1 : "n" ++ toString (1 : ℕ) = "n1" := rfl
  have hsg : "s" ++ toString (0 : ℕ) = "s0" := rfl
  have hk1 : (decide ((((2 : ℚ), (3 : ℚ)) : ℚ × ℚ) = ((5, 7) : ℚ × ℚ))) = false := by
    rw [decide_eq_false_iff_not, Prod.mk.injEq]
    norm_num
  have hk2 : (decide ((((5 : ℚ), (7 : ℚ)) : ℚ × ℚ) = ((2, 3) : ℚ × ℚ))) = false := by
    rw [decide_eq_false_iff_not, Prod.mk.injEq]
    norm_num
  norm_num [Builder.buildGraph, Builder.endpointCounts, Builder.allChains,
    Builder.coordArrays, Builder.bumpKey, Builder.coordKey, Builder.round5,
    Builder.buildNodes, Builder.edgeStep, Builder.keyLookup, Builder.pushEdge,
    Builder.lineStringLength, Builder.Coord.toLatLng, flatDist, List.foldl,
    List.find?, hs0, hs1, hsg, hk1, hk2]
  simp

/-- Counterexample to C8 as stated: a successfully parsed payload that
violates the graph schema (it has a readable `metadata` object but no
`nodes` member at all) is returned as the loaded graph, not `null` — the
loader performs a bare type assertion and no schema validation. -/
theorem loader_schema_violation_counterexample :
    Loader.loadGraphAttempt (.response true (.parsed
      (.jobj [("metadata", .jobj [("nodeCount", .jnum 1), ("edgeCount", .jnum 2),
        ("generatedAt", .jstr "now")])]))) =
      some (.jobj [("metadata", .jobj [("nodeCount", .jnum 1), ("edgeCount", .jnum 2),
        ("generatedAt", .jstr "now")])]) ∧
    Loader.isGraphShaped
      (.jobj [("metadata", .jobj [("nodeCount", .jnum 1), ("edgeCount", .jnum 2),
        ("generatedAt", .jstr "now")])]) = false := by
  exact ⟨rfl, rfl⟩

/-- C8 (amended): the loader resolves to "no graph available" (`null`) on
every network error, every non-success HTTP status, every JSON parse
failure, and every parsed payload on which the logging line's
`graph.metadata.nodeCount` access throws (nullish payload or nullish/absent
`metadata`); any other payload — including schema-violating graph documents
with a readable `metadata` member — is returned as the graph without
validation. -/
theorem loader_soft_fail (b : Loader.BodyParse) (v : Loader.JValue)
    (hv : Loader.metadataThrows v = true) :
    Loader.loadGraphAttempt .networkError = none ∧
    Loader.loadGraphAttempt (.response false b) = none ∧
    Loader.loadGraphAttempt (.response true .malformed) = none ∧
    Loader.loadGraphAttempt (.response true (.parsed v)) = none := by
  refine ⟨rfl, rfl, rfl, ?_⟩
  simp [Loader.loadGraphAttempt, hv]

/-- Witness for `loader_soft_fail` at a concrete malformed body and the
`null` payload (whose `metadata` access throws). -/
theorem loader_soft_fail_witness :
    Loader.loadGraphAttempt .networkError = none ∧
    Loader.loadGraphAttempt (.response false .malformed) = none ∧
    Loader.loadGraphAttempt (.response true .malformed) = none ∧
    Loader.loadGraphAttempt (.response true (.parsed .jnull)) = none :=
  loader_soft_fail .malformed .jnull rfl

/-- A graph in the shape the builder guarantees: node-record keys are unique
and every node's `id` field equals its key. -/
def WellFormedGraph (g : RoutingGraph) : Prop :=
  (g.nodes.map Prod.fst).Nodup ∧ ∀ kv ∈ g.nodes, kv.2.id = kv.1

/-- No two distinct nodes sit within the `positionsEqual` tolerance of each
other. -/
def SeparatedGraph (g : RoutingGraph) : Prop :=
  ∀ kv1 ∈ g.nodes, ∀ kv2 ∈ g.nodes, kv1.1 ≠ kv2.1 →
    positionsEqual kv1.2.position kv2.2.position = false

theorem positionsEqual_self (p : LatLng) : positionsEqual p p = true := by
  simp [positionsEqual]

theorem findNearestNode_mem {hdist : DistFn} {g : RoutingGraph} {wp : LatLng}
    {nd : GraphNode} (h : findNearestNode hdist g wp = some nd) :
    ∃ k, (k, nd) ∈ g.nodes := by
  have hfold : ∀ (l : List (String × GraphNode)) (acc : Option GraphNode × Option ℚ),
      (l.foldl
        (fun (acc : Option GraphNode × Option ℚ) kv =>
          let distance := hdist wp kv.2.position
          match acc.2 with
          | none => (some kv.2, some distance)
          | some nearest =>
            if distance < nearest then (some kv.2, some distance) else acc)
        acc).1 = some nd →
      acc.1 = some nd ∨ ∃ k, (k, nd) ∈ l := by
    intro l
    induction l with
    | nil => intro acc h2; exact Or.inl h2
    | cons kv rest ih =>
      intro acc h2
      rw [List.foldl_cons] at h2
      rcases ih _ h2 with h3 | h3
      · dsimp only at h3
        rcases hacc : acc.2 with _ | nearest
        · rw [hacc] at h3
          simp only [Option.some.injEq] at h3
          exact Or.inr ⟨kv.1, h3 ▸ List.mem_cons_self kv rest⟩
        · rw [hacc] at h3
          dsimp only at h3
          by_cases hlt : hdist wp kv.2.position < nearest
          · rw [if_pos hlt] at h3
            simp only [Option.some.injEq] at h3
            exact Or.inr ⟨kv.1, h3 ▸ List.mem_cons_self kv rest⟩
          · rw [if_neg hlt] at h3
            exact Or.inl h3
      · obtain ⟨k, hk⟩ := h3
        exact Or.inr ⟨k, List.mem_cons_of_mem kv hk⟩
  have h2 := hfold g.nodes (none, none) h
  rcases h2 with h3 | h3
  · simp at h3
  · exact h3

theorem wf_find_id {g : RoutingGraph} (hwf : WellFormedGraph g) {k : String}
    {nd : GraphNode} (hmem : (k, nd) ∈ g.nodes) : g.find? nd.id = some nd := by
  have hid : nd.id = k := hwf.2 (k, nd) hmem
  rw [RoutingGraph.find?, hid]
  have key : ∀ (l : List (String × GraphNode)), (List.map Prod.fst l).Nodup →
      (k, nd) ∈ l → (l.find? (fun kv => kv.1 = k)).map (·.2) = some nd := by
    intro l
    induction l with
    | nil => intro _ hm; simp at hm
    | cons kv rest ih =>
      intro hnodup hm
      rw [List.map_cons, List.nodup_cons] at hnodup
      rcases List.mem_cons.mp hm with h1 | h1
      · rw [← h1]
        rw [List.find?_cons_of_pos _ (by simp)]
        rfl
      · have hkey : kv.1 ≠ k := by
          intro hc
          exact hnodup.1 (hc ▸ (List.mem_map.mpr ⟨(k, nd), h1, rfl⟩))
        rw [List.find?_cons_of_neg _ (by simp [hkey])]
        exact ih hnodup.2 h1
  exact key g.nodes hwf.1 hmem

theorem separated_find_ne {g : RoutingGraph} (hsep : SeparatedGraph g)
    {x y : String} {nx ny : GraphNode} (hx : g.find? x = some nx)
    (hy : g.find? y = some ny) (hne : x ≠ y) :
    positionsEqual nx.position ny.position = false := by
  rw [RoutingGraph.find?] at hx hy
  cases hfx : List.find? (fun kv => kv.1 = x) g.nodes with
  | none => rw [hfx] at hx; simp at hx
  | some kvx =>
    cases hfy : List.find? (fun kv => kv.1 = y) g.nodes with
    | none => rw [hfy] at hy; simp at hy
    | some kvy =>
      rw [hfx] at hx
      rw [hfy] at hy
      have hmx := List.mem_of_find?_eq_some hfx
      have hmy := List.mem_of_find?_eq_some hfy
      have hkx : kvx.1 = x := by simpa using List.find?_some hfx
      have hky : kvy.1 = y := by simpa using List.find?_some hfy
      have hvx : kvx.2 = nx := by simpa using hx
      have hvy : kvy.2 = ny := by simpa using hy
      have := hsep kvx hmx kvy hmy (by rw [hkx, hky]; exact hne)
      rw [hvx, hvy] at this
      exact this

/-- Transfer the node-id chain of a solver path to its coordinate path: on a
separated graph, pairwise-distinct consecutive graph keys have
non-`positionsEqual` positions. -/
theorem posOf_chain {g : RoutingGraph} (hsep : SeparatedGraph g)
    {ids : List String}
    (hch : List.Chain' (fun x y => x ≠ y ∧ (g.find? x).isSome ∧ (g.find? y).isSome)
      ids) :
    List.Chain' (fun a b => positionsEqual a b = false)
      (ids.map (fun id => ((g.find? id).map (·.position)).getD ⟨0, 0⟩)) := by
  rw [List.chain'_map]
  refine hch.imp ?_
  intro x y hxy
  obtain ⟨hne, hsx, hsy⟩ := hxy
  obtain ⟨nx, hnx⟩ := Option.isSome_iff_exists.mp hsx
  obtain ⟨ny, hny⟩ := Option.isSome_iff_exists.mp hsy
  rw [hnx, hny]
  simpa using separated_find_ne hsep hnx hny hne

/-- Consecutive pairs of `l.zip l.tail` share their middle element. -/
theorem chain'_zip_tail {α : Type} : ∀ (l : List α),
    List.Chain' (fun a b : α × α => a.2 = b.1) (l.zip l.tail) := by
  intro l
  induction l with
  | nil => simp
  | cons x xs ih =>
    cases xs with
    | nil => simp
    | cons y ys =>
      rw [List.tail_cons, List.zip_cons_cons]
      refine List.chain'_cons'.mpr ⟨?_, ih⟩
      intro z hz
      cases ys with
      | nil => simp at hz
      | cons w ws =>
        rw [List.zip_cons_cons, List.head?_cons] at hz
        simp only [Option.mem_def, Option.some.injEq] at hz
        rw [← hz]

/-- Enumerating preserves a chain on the underlying elements. -/
theorem chain'_enumFrom {α : Type} {S : α → α → Prop} :
    ∀ (xs : List α), List.Chain' S xs → ∀ (n : ℕ),
      List.Chain' (fun a b : ℕ × α => S a.2 b.2) (List.enumFrom n xs) := by
  intro xs
  induction xs with
  | nil => intro _ n; simp
  | cons x ys ih =>
    intro h n
    rw [List.enumFrom_cons]
    refine List.chain'_cons'.mpr ⟨?_, ih (List.chain'_cons'.mp h).2 (n + 1)⟩
    intro z hz
    cases ys with
    | nil => simp at hz
    | cons y ws =>
      rw [List.enumFrom_cons, List.head?_cons] at hz
      simp only [Option.mem_def, Option.some.injEq] at hz
      rw [← hz]
      exact (List.chain'_cons'.mp h).1 y (by simp)

/-- The end node of each pair of `nodePairs` is the start node of the next
pair (the pairs walk consecutive waypoint nodes). -/
theorem nodePairs_chained (nodes : List GraphNode) :
    List.Chain' (fun a b => a.2.2 = b.2.1) (nodePairs nodes) :=
  chain'_enumFrom (nodes.zip nodes.tail) (chain'_zip_tail nodes) 0

theorem mem_enumFrom_snd {α : Type} : ∀ (l : List α) (n : ℕ) (x : ℕ × α),
    x ∈ List.enumFrom n l → x.2 ∈ l := by
  intro l
  induction l with
  | nil => intro n x h; simp at h
  | cons a as ih =>
    intro n x h
    rw [List.enumFrom_cons] at h
    rcases List.mem_cons.mp h with h1 | h1
    · rw [h1]; exact List.mem_cons_self a as
    · exact List.mem_cons_of_mem _ (ih (n + 1) x h1)

/-- Both nodes of every entry of `nodePairs nodes` come from `nodes`. -/
theorem nodePairs_mem {nodes : List GraphNode} {x : ℕ × GraphNode × GraphNode}
    (h : x ∈ nodePairs nodes) : x.2.1 ∈ nodes ∧ x.2.2 ∈ nodes := by
  have h2 : (x.2.1, x.2.2) ∈ nodes.zip nodes.tail :=
    mem_enumFrom_snd (nodes.zip nodes.tail) 0 x h
  have h3 := List.of_mem_zip h2
  exact ⟨h3.1, List.mem_of_mem_tail h3.2⟩

theorem composeStep_fullPath_none (hdist : DistFn) (g : RoutingGraph)
    (prefs : Option RoadPreferences) (acc : ComposeAcc)
    (x : ℕ × GraphNode × GraphNode)
    (hd : dijkstra g x.2.1.id x.2.2.id prefs = none) :
    (composeStep hdist g prefs acc x).fullPath =
      (if acc.fullPath.length = 0
          || !(positionsEqual (acc.fullPath.getLastD ⟨0, 0⟩) x.2.1.position) then
        acc.fullPath ++ [x.2.1.position]
      else acc.fullPath) ++ [x.2.2.position] := by
  unfold composeStep
  dsimp only
  rw [hd]

theorem composeStep_fullPath_some (hdist : DistFn) (g : RoutingGraph)
    (prefs : Option RoadPreferences) (acc : ComposeAcc)
    (x : ℕ × GraphNode × GraphNode) (segment : RouteResult)
    (hd : dijkstra g x.2.1.id x.2.2.id prefs = some segment) :
    (composeStep hdist g prefs acc x).fullPath =
      acc.fullPath ++ segment.path.drop
        (if acc.fullPath.length > 0
            && positionsEqual (acc.fullPath.getLastD ⟨0, 0⟩)
              (segment.path.headD ⟨0, 0⟩) then 1 else 0) := by
  unfold composeStep
  dsimp only
  rw [hd]

/-- Head, last and pairwise separation of a solver path, in coordinate
terms: on a separated graph the path starts at the start node's position,
ends at the end node's position, and never repeats a position between
consecutive points. -/
theorem dijkstra_some_path_spec {g : RoutingGraph} (hsep : SeparatedGraph g)
    {s t : String} {prefs : Option RoadPreferences} {res : RouteResult}
    {sn en : GraphNode} (hfs : g.find? s = some sn) (hfe : g.find? t = some en)
    (h : dijkstra g s t prefs = some res) :
    res.path.head? = some sn.position ∧ res.path.getLast? = some en.position ∧
    List.Chain' (fun a b => positionsEqual a b = false) res.path := by
  have hInv : DInv g s (dijkstraRun g prefs s t) :=
    loopE_inv (fuelBound g) (initState g s) (initState_inv g s)
  unfold dijkstra at h
  have hspec := extract_spec hInv (by rw [hfs]; rfl) (by rw [hfe]; rfl) h
  obtain ⟨-, -, hhd, hlst, hchain, -, hpath, -⟩ := hspec
  refine ⟨?_, ?_, ?_⟩
  · rw [hpath, List.head?_map, hhd]
    simp [hfs]
  · rw [hpath, List.getLast?_map, hlst]
    simp [hfe]
  · rw [hpath]
    exact posOf_chain hsep hchain

/-- The composer's per-pair fold keeps `fullPath` free of consecutive
duplicate positions: each appended segment is itself duplicate-free, and
the `startIndex` junction test elides the repeated boundary point, which on
a well-formed separated graph is always an exact repetition of the
accumulated path's last point. -/
theorem compose_path_chain {hdist : DistFn} {g : RoutingGraph}
    {prefs : Option RoadPreferences} (hwf : WellFormedGraph g)
    (hsep : SeparatedGraph g) :
    ∀ (ps : List (ℕ × GraphNode × GraphNode)) (acc : ComposeAcc),
      List.Chain' (fun a b => a.2.2 = b.2.1) ps →
      (∀ x ∈ ps, (∃ k, (k, x.2.1) ∈ g.nodes) ∧ ∃ k, (k, x.2.2) ∈ g.nodes) →
      List.Chain' (fun a b => positionsEqual a b = false) acc.fullPath →
      (∀ x ∈ ps.head?, acc.fullPath = [] ∨
        acc.fullPath.getLast? = some x.2.1.position) →
      List.Chain' (fun a b => positionsEqual a b = false)
        ((ps.foldl (composeStep hdist g prefs) acc).fullPath) := by
  intro ps
  induction ps with
  | nil => intro acc _ _ hacc _; simpa using hacc
  | cons x rest ih =>
    intro acc hch hmem hacc hhead
    rw [List.foldl_cons]
    obtain ⟨⟨k1, hk1⟩, k2, hk2⟩ := hmem x (List.mem_cons_self x rest)
    have hfs : g.find? x.2.1.id = some x.2.1 := wf_find_id hwf hk1
    have hfe : g.find? x.2.2.id = some x.2.2 := wf_find_id hwf hk2
    have hchx := List.chain'_cons'.mp hch
    suffices hsuf : List.Chain' (fun a b => positionsEqual a b = false)
        (composeStep hdist g prefs acc x).fullPath ∧
        ((composeStep hdist g prefs acc x).fullPath).getLast? =
          some x.2.2.position by
      refine ih _ hchx.2 (fun y hy => hmem y (List.mem_cons_of_mem x hy))
        hsuf.1 ?_
      intro y hy
      right
      rw [hsuf.2, hchx.1 y hy]
    cases hd : dijkstra g x.2.1.id x.2.2.id prefs with
    | none =>
      have hne_id : x.2.1.id ≠ x.2.2.id := by
        intro he
        rw [he, dijkstra_self_result g x.2.2.id prefs x.2.2 hfe] at hd
        exact Option.noConfusion hd
      have hpe : positionsEqual x.2.1.position x.2.2.position = false :=
        separated_find_ne hsep hfs hfe hne_id
      rw [composeStep_fullPath_none hdist g prefs acc x hd]
      by_cases hnil : acc.fullPath = []
      · rw [hnil]
        constructor
        · split_ifs with hcond
          · simp only [List.nil_append]
            exact List.chain'_pair.mpr hpe
          · simp
        · split_ifs with hcond <;> simp [List.getLast?_concat]
      · have hlast : acc.fullPath.getLast? = some x.2.1.position := by
          rcases hhead x (by simp) with h1 | h1
          · exact absurd h1 hnil
          · exact h1
        have hgld : acc.fullPath.getLastD ⟨0, 0⟩ = x.2.1.position := by
          rw [List.getLastD_eq_getLast?, hlast]
          rfl
        have hlen : acc.fullPath.length ≠ 0 := by
          simpa [List.length_eq_zero] using hnil
        split_ifs with hcond
        · exfalso
          rw [hgld, positionsEqual_self] at hcond
          simp [hlen] at hcond
        · constructor
          · rw [List.chain'_append]
            refine ⟨hacc, List.chain'_singleton _, ?_⟩
            intro a ha b hb
            rw [hlast] at ha
            simp only [Option.mem_def, Option.some.injEq] at ha
            rw [List.head?_cons] at hb
            simp only [Option.mem_def, Option.some.injEq] at hb
            rw [← ha, ← hb]
            exact hpe
          · exact List.getLast?_concat _
    | some segment =>
      obtain ⟨hph, hpl, hpchain⟩ := dijkstra_some_path_spec hsep hfs hfe hd
      rw [composeStep_fullPath_some hdist g prefs acc x segment hd]
      by_cases hnil : acc.fullPath = []
      · rw [hnil]
        split_ifs with hcond
        · exfalso
          simp at hcond
        · simp only [List.nil_append, List.drop_zero]
          exact ⟨hpchain, hpl⟩
      · have hlast : acc.fullPath.getLast? = some x.2.1.position := by
          rcases hhead x (by simp) with h1 | h1
          · exact absurd h1 hnil
          · exact h1
        have hgld : acc.fullPath.getLastD ⟨0, 0⟩ = x.2.1.position := by
          rw [List.getLastD_eq_getLast?, hlast]
          rfl
        have hhd2 : segment.path.headD ⟨0, 0⟩ = x.2.1.position := by
          rw [List.headD_eq_head?, hph]
          rfl
        have hlen : acc.fullPath.length ≠ 0 := by
          simpa [List.length_eq_zero] using hnil
        split_ifs with hcond
        · rcases hsp : segment.path with _ | ⟨q0, qtl⟩
          · rw [hsp] at hph
            exact absurd hph (by simp)
          · have hq0 : q0 = x.2.1.position := by
              rw [hsp, List.head?_cons] at hph
              simpa using hph
            simp only [List.drop_one, List.tail_cons]
            constructor
            · rw [List.chain'_append]
              have hqchain := hpchain
              rw [hsp] at hqchain
              refine ⟨hacc, (List.chain'_cons'.mp hqchain).2, ?_⟩
              intro a ha b hb
              have h2 := (List.chain'_cons'.mp hqchain).1 b hb
              rw [hlast] at ha
              simp only [Option.mem_def, Option.some.injEq] at ha
              rw [← ha, ← hq0]
              exact h2
            · rcases qtl with _ | ⟨r0, rtl⟩
              · have hq0e : q0 = x.2.2.position := by
                  rw [hsp] at hpl
                  simpa using hpl
                simp only [List.append_nil]
                rw [hlast, ← hq0, hq0e]
              · rw [List.getLast?_append_of_ne_nil _ (List.cons_ne_nil r0 rtl)]
                have h3 := hpl
                rw [hsp, List.getLast?_cons_cons] at h3
                exact h3
        · exfalso
          rw [hgld, hhd2, positionsEqual_self] at hcond
          simp [hlen] at hcond

/-- C7: every route produced by the composer through the per-pair
composition path — graph-routed legs and straight-line fallback legs alike —
has a `path` with no two consecutive duplicate points (duplicates in the
`positionsEqual` sense: both coordinates within `1e-5`), provided the graph
is well-formed (keys unique and matching node ids), distinct nodes are
separated by more than the tolerance, and every waypoint is locatable.  The
whole-route fallback is excluded: its `path` is the raw waypoint list, which
can repeat (see the counterexample). -/
theorem path_no_consecutive_duplicates (hdist : DistFn) (g : RoutingGraph)
    (waypoints : List LatLng) (prefs : Option RoadPreferences)
    (res : ExtendedRouteResult) (hwf : WellFormedGraph g)
    (hsep : SeparatedGraph g)
    (hloc : ∀ wp ∈ waypoints, (findNearestNode hdist g wp).isSome)
    (h : calculateRoute hdist (some g) waypoints prefs = some res) :
    List.Chain' (fun a b => positionsEqual a b = false) res.path := by
  unfold calculateRoute at h
  by_cases hlen : waypoints.length < 2
  · rw [if_pos hlen] at h
    exact absurd h (by simp)
  · rw [if_neg hlen] at h
    have h2 : (if ((waypoints.map (findNearestNode hdist g)).any
          fun o => o.isNone) = true
        then some (wholeRouteFallback hdist waypoints)
        else some
          ({ path := (List.foldl (composeStep hdist g prefs)
               { fullPath := [], allNodeIds := [], legs := []
                 totalDistance := JNum.num 0
                 totalDistanceByRoadClass := createEmptyRoadClassRecord
                 totalTravelTimeByRoadClass := createEmptyRoadClassRecord }
               (nodePairs
                 ((waypoints.map (findNearestNode hdist g)).reduceOption))).fullPath
             distance := (List.foldl (composeStep hdist g prefs)
               { fullPath := [], allNodeIds := [], legs := []
                 totalDistance := JNum.num 0
                 totalDistanceByRoadClass := createEmptyRoadClassRecord
                 totalTravelTimeByRoadClass := createEmptyRoadClassRecord }
               (nodePairs
                 ((waypoints.map (findNearestNode hdist g)).reduceOption))).totalDistance
             nodeIds := (List.foldl (composeStep hdist g prefs)
               { fullPath := [], allNodeIds := [], legs := []
                 totalDistance := JNum.num 0
                 totalDistanceByRoadClass := createEmptyRoadClassRecord
                 totalTravelTimeByRoadClass := createEmptyRoadClassRecord }
               (nodePairs
                 ((waypoints.map (findNearestNode hdist g)).reduceOption))).allNodeIds
             distanceByRoadClass := (List.foldl (composeStep hdist g prefs)
               { fullPath := [], allNodeIds := [], legs := []
                 totalDistance := JNum.num 0
                 totalDistanceByRoadClass := createEmptyRoadClassRecord
                 totalTravelTimeByRoadClass := createEmptyRoadClassRecord }
               (nodePairs
                 ((waypoints.map (findNearestNode hdist g)).reduceOption))).totalDistanceByRoadClass
             travelTime := ((List.foldl (composeStep hdist g prefs)
               { fullPath := [], allNodeIds := [], legs := []
                 totalDistance := JNum.num 0
                 totalDistanceByRoadClass := createEmptyRoadClassRecord
                 totalTravelTimeByRoadClass := createEmptyRoadClassRecord }
               (nodePairs
                 ((waypoints.map (findNearestNode hdist g)).reduceOption))).totalTravelTimeByRoadClass).total
             travelTimeByRoadClass := (List.foldl (composeStep hdist g prefs)
               { fullPath := [], allNodeIds := [], legs := []
                 totalDistance := JNum.num 0
                 totalDistanceByRoadClass := createEmptyRoadClassRecord
                 totalTravelTimeByRoadClass := createEmptyRoadClassRecord }
               (nodePairs
                 ((waypoints.map (findNearestNode hdist g)).reduceOption))).totalTravelTimeByRoadClass
             legs := (List.foldl (composeStep hdist g prefs)
               { fullPath := [], allNodeIds := [], legs := []
                 totalDistance := JNum.num 0
                 totalDistanceByRoadClass := createEmptyRoadClassRecord
                 totalTravelTimeByRoadClass := createEmptyRoadClassRecord }
               (nodePairs
                 ((waypoints.map (findNearestNode hdist g)).reduceOption))).legs }
            : ExtendedRouteResult)) = some res := h
    have hany : ((waypoints.map (findNearestNode hdist g)).any
        fun o => o.isNone) = false := by
      rw [List.any_eq_false]
      intro o ho
      obtain ⟨wp, hwp, hfo⟩ := List.mem_map.mp ho
      have hS := hloc wp hwp
      rw [← hfo]
      intro hcontra
      rw [Option.isNone_iff_eq_none] at hcontra
      rw [hcontra] at hS
      simp at hS
    rw [if_neg (by rw [hany]; simp)] at h2
    rw [← Option.some.inj h2]
    dsimp only
    refine compose_path_chain hwf hsep _ _ (nodePairs_chained _) ?_
      List.chain'_nil (fun y hy => Or.inl rfl)
    intro y hy
    have hnode : ∀ nd ∈ (waypoints.map (findNearestNode hdist g)).reduceOption,
        ∃ k, (k, nd) ∈ g.nodes := by
      intro nd hnd
      rw [List.reduceOption_mem_iff] at hnd
      obtain ⟨wp, _, hwp⟩ := List.mem_map.mp hnd
      exact findNearestNode_mem hwp
    obtain ⟨h1, h2⟩ := nodePairs_mem hy
    exact ⟨hnode _ h1, hnode _ h2⟩

/-- The whole-route fallback violates the invariant of C7: with the graph
unavailable and the same waypoint twice, the composer returns the raw
waypoint list as `path`, which repeats the point — the two consecutive
entries are `positionsEqual`. -/
theorem path_duplicate_counterexample :
    calculateRoute flatDist none [⟨1, 2⟩, ⟨1, 2⟩] none =
      some (wholeRouteFallback flatDist [⟨1, 2⟩, ⟨1, 2⟩]) ∧
    (wholeRouteFallback flatDist [⟨1, 2⟩, ⟨1, 2⟩]).path = [⟨1, 2⟩, ⟨1, 2⟩] ∧
    ¬ List.Chain' (fun a b => positionsEqual a b = false)
      (wholeRouteFallback flatDist [⟨1, 2⟩, ⟨1, 2⟩]).path := by
  refine ⟨rfl, rfl, ?_⟩
  intro hcontra
  rw [show (wholeRouteFallback flatDist [⟨1, 2⟩, ⟨1, 2⟩]).path =
    [(⟨1, 2⟩ : LatLng), ⟨1, 2⟩] from rfl] at hcontra
  rw [List.chain'_pair, positionsEqual_self] at hcontra
  simp at hcontra

theorem path_no_consecutive_duplicates_witness :
    List.Chain' (fun a b => positionsEqual a b = false)
      ([⟨0, 0⟩, ⟨0, 1⟩] : List LatLng) := by
  have hwf2 : WellFormedGraph wGraph2 := by
    constructor
    · simp [wGraph2]
    · intro kv hkv
      simp only [wGraph2, List.mem_cons, List.not_mem_nil, or_false] at hkv
      rcases hkv with rfl | rfl
      · rfl
      · rfl
  have hsep2 : SeparatedGraph wGraph2 := by
    intro kv1 h1 kv2 h2 hne
    simp only [wGraph2, List.mem_cons, List.not_mem_nil, or_false] at h1 h2
    rcases h1 with rfl | rfl <;> rcases h2 with rfl | rfl
    · exact absurd rfl hne
    · norm_num [positionsEqual, wNodeA, wNodeB]
    · norm_num [positionsEqual, wNodeA, wNodeB]
    · exact absurd rfl hne
  have hloc2 : ∀ wp ∈ ([⟨0, 0⟩, ⟨0, 1⟩] : List LatLng),
      (findNearestNode flatDist wGraph2 wp).isSome := by
    intro wp hwp
    simp only [List.mem_cons, List.not_mem_nil, or_false] at hwp
    rcases hwp with rfl | rfl
    · rw [findNearest_wGraph2_a]; rfl
    · rw [findNearest_wGraph2_b]; rfl
  have h := path_no_consecutive_duplicates flatDist wGraph2 [⟨0, 0⟩, ⟨0, 1⟩] none
    { path := [⟨0, 0⟩, ⟨0, 1⟩], distance := .num 1, nodeIds := []
      distanceByRoadClass := { createEmptyRoadClassRecord with local_ := 1 }
      travelTime := 9/125
      travelTimeByRoadClass := { createEmptyRoadClassRecord with local_ := 9/125 }
      legs := [{ fromWaypointIndex := 0, toWaypointIndex := 1
                 distance := .num 1
                 distanceByRoadClass :=
                   { createEmptyRoadClassRecord with local_ := 1 }
                 travelTime := 9/125
                 travelTimeByRoadClass :=
                   { createEmptyRoadClassRecord with local_ := 9/125 } }] }
    hwf2 hsep2 hloc2 calculateRoute_wGraph2_eval
  simpa using h
